import Mathlib

/-!
Verification development for the tablero tabular data engine.

The definitions below are a shallow embedding of the TypeScript sources:
`packages/core/filtering.ts`, the sorting module (`toggleSort`, `defaultCompare`,
`createComparator`, `applySort`), the pagination module (`getPageStartIndex`,
`getPageEndIndex`, `getPaginatedData`), the table-state module (`selectRows`,
`deselectRows`, `setGlobalFilter`) and `packages/utils/urlSync.ts`
(`parseStateFromUrl`, `serializeStateToUrl` and their helpers).

Modelling conventions:
* JavaScript strings are Lean `String`s; the handful of string operations the
  code uses (`toLowerCase`, `trim`, `includes`, `startsWith`, `slice`,
  concatenation) are defined structurally over `String.data` so that all
  definitions evaluate by kernel reduction.
* JavaScript runtime values flowing through accessors are modelled by `Val`:
  strings, (integer) numbers, `null` and `undefined` — the cases
  `defaultCompare` and `defaultMatch` distinguish (the `Date` branch of
  `defaultCompare` is not exercised by any claim and is not modelled).
* A record (`Record<string, unknown>`) is an insertion-ordered association
  list `Rec`; `Object.values` is the list of second components.
* Plain JavaScript objects used as string maps (`columnFilters`,
  `URLSearchParams` backing lists) are insertion-ordered association lists.
* A JavaScript `Set` of row ids is modelled by its member set (`Finset`).
* `Array.prototype.sort` (required stable by ECMAScript) is modelled by a
  right-to-left-scanning insertion sort `jsSort`, which yields the stable
  order mandated by the standard for consistent comparators.
* `[...data]` produces a fresh array with the same elements; in the pure
  embedding it is the identity.
* Machine numbers that the claims touch (page indices, page sizes, comparator
  results) are modelled as `Int`; `parseInt(s, 10)` is `jsParseInt`, returning
  `none` for `NaN`, and `String(n)` is `intToDecString`.
-/

/-- `needle` occurs at the start of `hay` (helper for the JS string model). -/
def leadMatch : List Char → List Char → Bool
  | _, [] => true
  | [], _ :: _ => false
  | a :: as, b :: bs => a == b && leadMatch as bs

/-- `needle` occurs somewhere inside `hay` (JS `String.prototype.includes`). -/
def hasSub (needle : List Char) : List Char → Bool
  | [] => needle.isEmpty
  | c :: t => leadMatch (c :: t) needle || hasSub needle t

/-- JS `String.prototype.toLowerCase` (ASCII-adequate for the values used). -/
def jsToLower (s : String) : String := String.mk (s.data.map Char.toLower)

/-- JS `String.prototype.trim`. -/
def jsTrim (s : String) : String :=
  String.mk (((s.data.dropWhile Char.isWhitespace).reverse.dropWhile Char.isWhitespace).reverse)

/-- JS `hay.includes(needle)`. -/
def jsIncludes (hay needle : String) : Bool := hasSub needle.data hay.data

/-- JS `s.startsWith(p)`. -/
def jsStartsWith (s p : String) : Bool := leadMatch s.data p.data

/-- JS string concatenation. -/
def jsConcat (a b : String) : String := String.mk (a.data ++ b.data)

/-- JS `key.slice(p.length)` — drop the first `p.length` characters. -/
def jsDropLen (key p : String) : String := String.mk (key.data.drop p.data.length)

/-- Decimal digit character for `d < 10`. -/
def digitChar (d : Nat) : Char := Char.ofNat (48 + d)

/-- Reversed decimal digits of `n`; the fuel (any bound `> log10 n`) keeps the
recursion structural so that it evaluates by kernel reduction. -/
def natDigitsRevAux : Nat → Nat → List Char
  | 0, _ => []
  | fuel + 1, n => if n < 10 then [digitChar n] else digitChar (n % 10) :: natDigitsRevAux fuel (n / 10)

/-- Decimal representation of a natural number (`n + 1` is always enough fuel). -/
def natToDecString (n : Nat) : String := String.mk (natDigitsRevAux (n + 1) n).reverse

/-- JS `String(i)` for an integral number. -/
def intToDecString (i : Int) : String :=
  if i < 0 then jsConcat "-" (natToDecString i.natAbs) else natToDecString i.toNat

/-- Numeric value of a list of decimal digit characters. -/
def digitsVal (ds : List Char) : Nat := ds.foldl (fun acc c => acc * 10 + (c.toNat - 48)) 0

/-- Parse a maximal run of leading decimal digits; `none` when there is none. -/
def parseDigits (cs : List Char) : Option Nat :=
  let ds := cs.takeWhile Char.isDigit
  if ds.isEmpty then none else some (digitsVal ds)

/-- JS `parseInt(s, 10)`: skip leading whitespace, optional sign, then a
maximal digit prefix; `none` models `NaN`. -/
def jsParseInt (s : String) : Option Int :=
  let cs := s.data.dropWhile Char.isWhitespace
  match cs with
  | [] => none
  | c :: rest =>
    if c = '-' then
      match parseDigits rest with
      | some m => some (-(m : Int))
      | none => none
    else if c = '+' then
      match parseDigits rest with
      | some m => some ((m : Int))
      | none => none
    else
      match parseDigits cs with
      | some m => some ((m : Int))
      | none => none

/-- JavaScript runtime values relevant to filtering/sorting. -/
inductive Val where
  | str (s : String)
  | num (n : Int)
  | vnull
  | undefinedVal
deriving DecidableEq

/-- JS `value === null || value === undefined`. -/
def Val.isNullish : Val → Bool
  | .vnull => true
  | .undefinedVal => true
  | _ => false

/-- JS `String(value ?? "")` (for the values `Val` models). -/
def valToString : Val → String
  | .str s => s
  | .num n => intToDecString n
  | .vnull => ""
  | .undefinedVal => ""

/-- A data record: `Record<string, unknown>` as an insertion-ordered
association list from field names to values. -/
abbrev Rec := List (String × Val)

/-- JS `Object.values(item)`. -/
def objectValues (r : Rec) : List Val := r.map Prod.snd

/-- `FilterState` from `core/filtering.ts`; `columnFilters` is the
insertion-ordered entry list of the `Record<string, string>`. -/
structure FilterState where
  globalFilter : String
  columnFilters : List (String × String)
deriving DecidableEq

/-- `createInitialFilterState` from `core/filtering.ts`. -/
def createInitialFilterState : FilterState :=
  { globalFilter := "", columnFilters := [] }

/-- `setGlobalFilter` from `core/filtering.ts`. -/
def setGlobalFilter (filter : String) : FilterState :=
  { globalFilter := filter, columnFilters := [] }

/-- `isFilterActive` from `core/filtering.ts`. -/
def isFilterActive (state : FilterState) : Bool :=
  jsTrim state.globalFilter != "" || state.columnFilters.any (fun f => jsTrim f.2 != "")

/-- `defaultMatch` from `core/filtering.ts`: case-insensitive substring match,
blank filter always matches. -/
def defaultMatch (value : Val) (filter : String) : Bool :=
  if jsTrim filter == "" then true
  else
    let normalizedFilter := jsTrim (jsToLower filter)
    let normalizedValue := jsToLower (valToString value)
    jsIncludes normalizedValue normalizedFilter

/-- The per-record predicate of `applyFilters` (the body of `data.filter`). -/
def filterPred (filterState : FilterState) (getValue : Rec → String → Val)
    (matchFn : Val → String → Bool) (item : Rec) : Bool :=
  (if jsTrim filterState.globalFilter != "" then
    (if filterState.columnFilters.length == 0 then
      (objectValues item).any (fun value => matchFn value filterState.globalFilter)
    else true)
  else true)
  && filterState.columnFilters.all (fun cf =>
      if jsTrim cf.2 != "" then matchFn (getValue item cf.1) cf.2 else true)

/-- `applyFilters` from `core/filtering.ts`. -/
def applyFilters (data : List Rec) (filterState : FilterState)
    (getValue : Rec → String → Val) (matchFn : Val → String → Bool := defaultMatch)
    (serverMode : Option Bool := none) : List Rec :=
  if serverMode = some true then data
  else if isFilterActive filterState = false then data
  else data.filter (filterPred filterState getValue matchFn)

/-- Sort directions (`"asc" | "desc"`; the `null` case is `Option`). -/
inductive SortDirection where
  | asc
  | desc
deriving DecidableEq

/-- Serialized form of a sort direction. -/
def dirToString : SortDirection → String
  | .asc => "asc"
  | .desc => "desc"

/-- `SortState` from the sorting module. -/
structure SortState where
  columnId : Option String
  direction : Option SortDirection
deriving DecidableEq

/-- `createInitialSortState`. -/
def createInitialSortState : SortState :=
  { columnId := none, direction := none }

/-- `toggleSort`: cycles none → asc → desc → none on one column. -/
def toggleSort (currentState : SortState) (columnId : String) : SortState :=
  if currentState.columnId = some columnId then
    if currentState.direction = some .asc then
      { columnId := some columnId, direction := some .desc }
    else if currentState.direction = some .desc then
      { columnId := none, direction := none }
    else { columnId := some columnId, direction := some .asc }
  else { columnId := some columnId, direction := some .asc }

/-- `isSortActive`. -/
def isSortActive (state : SortState) : Bool :=
  state.columnId.isSome && state.direction.isSome

/-- JS falsiness of a `string | null` (`null` and `""` are falsy). -/
def jsFalsyStrOpt : Option String → Bool
  | none => true
  | some s => s == ""

/-- `defaultCompare` from the sorting module. `localeCompare` is modelled as
plain character-wise comparison (only its sign is ever used). -/
def localeCompare (a b : String) : Int :=
  compareChars a.data b.data
where
  compareChars : List Char → List Char → Int
    | [], [] => 0
    | [], _ :: _ => -1
    | _ :: _, [] => 1
    | a :: as, b :: bs => if a < b then -1 else if b < a then 1 else compareChars as bs

/-- `defaultCompare(a, b)`: null/undefined compare greater than defined values;
numbers numerically; strings via `localeCompare`; otherwise stringified. -/
def defaultCompare (a b : Val) : Int :=
  if a = b then 0
  else if a.isNullish then 1
  else if b.isNullish then -1
  else
    match a, b with
    | .num x, .num y => x - y
    | .str x, .str y => localeCompare x y
    | _, _ => localeCompare (valToString a) (valToString b)

/-- `createComparator(direction, compareFn)`. -/
def createComparator (direction : SortDirection)
    (compareFn : Val → Val → Int := defaultCompare) : Val → Val → Int :=
  fun a b =>
    let result := compareFn a b
    if direction = .asc then result else -result

/-- Insert `x` into the reversed accumulator of the insertion sort: walk down
(over the elements that will follow `x`) while the comparator orders `x`
strictly before them, exactly like the element-shifting loop of an
array insertion sort scanning from the right. -/
def insRev {α : Type} (cmp : α → α → Int) (x : α) : List α → List α
  | [] => [x]
  | z :: zs => if cmp x z < 0 then z :: insRev cmp x zs else x :: z :: zs

/-- Model of ECMAScript `Array.prototype.sort(cmp)` (stable). The accumulator
is kept reversed; the result is reversed back at the end. -/
def jsSort {α : Type} (cmp : α → α → Int) (l : List α) : List α :=
  (l.foldl (fun acc x => insRev cmp x acc) []).reverse

/-- `applySort` from the sorting module. The early return covers server mode,
inactive sort and a falsy (`null` or `""`) column id. -/
def applySort {T : Type} (data : List T) (sortState : SortState)
    (getValue : T → String → Val) (compareFn : Option (Val → Val → Int) := none)
    (serverMode : Option Bool := none) : List T :=
  if serverMode = some true then data
  else if isSortActive sortState = false || jsFalsyStrOpt sortState.columnId then data
  else
    match sortState.columnId, sortState.direction with
    | some columnId, some direction =>
      jsSort (fun a b =>
        createComparator direction (compareFn.getD defaultCompare)
          (getValue a columnId) (getValue b columnId)) data
    | _, _ => data

/-- `PaginationState` from the pagination module. -/
structure PaginationState where
  pageIndex : Int
  pageSize : Int
  totalCount : Option Int := none
  pageCount : Option Int := none
deriving DecidableEq

/-- `getPageStartIndex`. -/
def getPageStartIndex (pageIndex pageSize : Int) : Int := pageIndex * pageSize

/-- `getPageEndIndex`. -/
def getPageEndIndex (pageIndex pageSize totalItems : Int) : Int :=
  min (getPageStartIndex pageIndex pageSize + pageSize) totalItems

/-- ECMAScript `Array.prototype.slice(s, e)` with its negative-index
normalisation. -/
def jsSlice {α : Type} (l : List α) (s e : Int) : List α :=
  let len : Int := l.length
  let s' := if s < 0 then max (len + s) 0 else min s len
  let e' := if e < 0 then max (len + e) 0 else min e len
  (l.drop s'.toNat).take (e' - s').toNat

/-- `getPaginatedData` from the pagination module. -/
def getPaginatedData {T : Type} (data : List T) (pagination : PaginationState)
    (serverMode : Option Bool := none) : List T :=
  if serverMode = some true then data
  else jsSlice data (getPageStartIndex pagination.pageIndex pagination.pageSize)
    (getPageEndIndex pagination.pageIndex pagination.pageSize data.length)

/-- Row identifiers are `string | number`. -/
abbrev RowId := String ⊕ Int

/-- `SelectionState`: the member set of the JS `Set` of selected row ids. -/
structure SelectionState where
  selectedRowIds : Finset RowId
deriving DecidableEq

/-- `ServerMode` per-stage flags. -/
structure ServerMode where
  pagination : Option Bool := none
  sorting : Option Bool := none
  filtering : Option Bool := none
deriving DecidableEq

/-- `TableState` from the table-state module. -/
structure TableState where
  sorting : SortState
  pagination : PaginationState
  filtering : FilterState
  columnVisibility : List (String × Bool)
  columnOrder : List String
  selection : SelectionState
  serverMode : Option ServerMode := none
deriving DecidableEq

/-- `updateSelection`. -/
def updateSelection (state : TableState) (selection : SelectionState) : TableState :=
  { state with selection := selection }

/-- `selectRows`: copy the set and add each id. -/
def selectRows (state : TableState) (rowIds : List RowId) : TableState :=
  updateSelection state
    ⟨rowIds.foldl (fun s rid => insert rid s) state.selection.selectedRowIds⟩

/-- `deselectRows`: copy the set and delete each id. -/
def deselectRows (state : TableState) (rowIds : List RowId) : TableState :=
  updateSelection state
    ⟨rowIds.foldl (fun s rid => s.erase rid) state.selection.selectedRowIds⟩

/-- `handleSelectAll` from `useDataTable`: select the current page's row ids
(the multi-mode path that reaches `selectRows`). -/
def handleSelectAll (state : TableState) (pageRowIds : List RowId) : TableState :=
  selectRows state pageRowIds

/-- `handleDeselectAll` from `useDataTable`: deselect the current page's row ids. -/
def handleDeselectAll (state : TableState) (pageRowIds : List RowId) : TableState :=
  deselectRows state pageRowIds

/-- `UrlParamNames` (all fields optional). -/
structure UrlParamNames where
  page : Option String := none
  pageSize : Option String := none
  sortColumn : Option String := none
  sortDir : Option String := none
  globalFilter : Option String := none
  columnFilterPrefix : Option String := none
deriving DecidableEq

/-- `Required<UrlParamNames>` after merging with the defaults. -/
structure ResolvedParamNames where
  page : String
  pageSize : String
  sortColumn : String
  sortDir : String
  globalFilter : String
  columnFilterPrefix : String
deriving DecidableEq

/-- `DEFAULT_PARAM_NAMES` from `urlSync.ts`. -/
def DEFAULT_PARAM_NAMES : ResolvedParamNames :=
  { page := "page", pageSize := "pageSize", sortColumn := "sort", sortDir := "sortDir",
    globalFilter := "q", columnFilterPrefix := "filter_" }

/-- Per-feature enable flags of `UrlSyncConfig.features`. -/
structure UrlSyncFeatures where
  pagination : Option Bool := none
  sorting : Option Bool := none
  filtering : Option Bool := none
deriving DecidableEq

/-- `UrlSyncConfig`. -/
structure UrlSyncConfig where
  enabled : Option Bool := none
  paramNames : Option UrlParamNames := none
  debounceMs : Option Int := none
  features : Option UrlSyncFeatures := none
deriving DecidableEq

/-- The all-defaults configuration (`{}`). -/
def defaultUrlSyncConfig : UrlSyncConfig := {}

/-- `{ ...DEFAULT_PARAM_NAMES, ...config.paramNames }`. -/
def resolveParamNames (config : UrlSyncConfig) : ResolvedParamNames :=
  match config.paramNames with
  | none => DEFAULT_PARAM_NAMES
  | some pn =>
    { page := pn.page.getD DEFAULT_PARAM_NAMES.page,
      pageSize := pn.pageSize.getD DEFAULT_PARAM_NAMES.pageSize,
      sortColumn := pn.sortColumn.getD DEFAULT_PARAM_NAMES.sortColumn,
      sortDir := pn.sortDir.getD DEFAULT_PARAM_NAMES.sortDir,
      globalFilter := pn.globalFilter.getD DEFAULT_PARAM_NAMES.globalFilter,
      columnFilterPrefix := pn.columnFilterPrefix.getD DEFAULT_PARAM_NAMES.columnFilterPrefix }

/-- `config.features ?? all-enabled`, then `features.f !== false`. -/
def featureOn (features : Option UrlSyncFeatures) (f : UrlSyncFeatures → Option Bool) : Bool :=
  match features with
  | none => true
  | some fs => f fs != some false

/-- `URLSearchParams`: its backing list of name/value pairs. -/
abbrev UrlParams := List (String × String)

/-- `params.get(key)`: value of the first pair with that name. -/
def getParam (params : UrlParams) (key : String) : Option String :=
  (params.find? (fun e => e.1 == key)).map Prod.snd

/-- `params.delete(key)`: remove every pair with that name. -/
def deleteParam (params : UrlParams) (key : String) : UrlParams :=
  params.filter (fun e => e.1 != key)

/-- `params.set(key, value)`: update the first pair with that name in place and
drop the rest, or append when absent. -/
def setParam : UrlParams → String → String → UrlParams
  | [], key, value => [(key, value)]
  | e :: rest, key, value =>
    if e.1 == key then (key, value) :: deleteParam rest key
    else e :: setParam rest key value

/-- `Partial<PaginationState>` as produced by `parsePaginationFromUrl`. -/
structure PartialPaginationState where
  pageIndex : Option Int := none
  pageSize : Option Int := none
deriving DecidableEq

/-- `parsePaginationFromUrl`: a present, truthy `page` parameter contributes
`pageIndex` when `parseInt` yields a non-negative number; a `pageSize`
parameter contributes when `parseInt` yields a positive number. -/
def parsePaginationFromUrl (params : UrlParams) (paramNames : ResolvedParamNames) :
    PartialPaginationState :=
  let pageParam := getParam params paramNames.page
  let pageSizeParam := getParam params paramNames.pageSize
  let pIdx : Option Int :=
    match pageParam with
    | some s =>
      if s != "" then
        match jsParseInt s with
        | some v => if 0 ≤ v then some v else none
        | none => none
      else none
    | none => none
  let pSz : Option Int :=
    match pageSizeParam with
    | some s =>
      if s != "" then
        match jsParseInt s with
        | some v => if 0 < v then some v else none
        | none => none
      else none
    | none => none
  { pageIndex := pIdx, pageSize := pSz }

/-- The non-empty `Partial<SortState>` produced by `parseSortingFromUrl`. -/
structure ParsedSortState where
  columnId : String
  direction : Option SortDirection
deriving DecidableEq

/-- `direction && ["asc","desc"].includes(direction.toLowerCase()) ? ... : null`. -/
def parseDirection (direction : Option String) : Option SortDirection :=
  match direction with
  | some d =>
    if jsToLower d == "asc" then some .asc
    else if jsToLower d == "desc" then some .desc
    else none
  | none => none

/-- `parseSortingFromUrl`: `{}` (here `none`) when the sort-column parameter is
absent or falsy. -/
def parseSortingFromUrl (params : UrlParams) (paramNames : ResolvedParamNames) :
    Option ParsedSortState :=
  match getParam params paramNames.sortColumn with
  | none => none
  | some c =>
    if c == "" then none
    else some { columnId := c, direction := parseDirection (getParam params paramNames.sortDir) }

/-- JS object assignment `m[k] = v` on an insertion-ordered string map. -/
def upsert : List (String × String) → String → String → List (String × String)
  | [], key, value => [(key, value)]
  | e :: rest, key, value =>
    if e.1 == key then (key, value) :: rest else e :: upsert rest key value

/-- The per-entry step of `parseFilteringFromUrl`'s `forEach`: keys carrying
the column-filter prefix with truthy stripped id and truthy value are written
into the filter map (`columnFilters[columnId] = value`). -/
def collectColumnFilters (p : String) (acc : List (String × String))
    (e : String × String) : List (String × String) :=
  if jsStartsWith e.1 p then
    let columnId := jsDropLen e.1 p
    if columnId != "" && e.2 != "" then upsert acc columnId e.2 else acc
  else acc

/-- `parseFilteringFromUrl`: global filter and prefixed column filters. -/
def parseFilteringFromUrl (params : UrlParams) (paramNames : ResolvedParamNames) : FilterState :=
  let globalFilter := (getParam params paramNames.globalFilter).getD ""
  let columnFilters := params.foldl (collectColumnFilters paramNames.columnFilterPrefix) []
  { globalFilter := globalFilter, columnFilters := columnFilters }

/-- `Partial<TableState>` as produced by `parseStateFromUrl`. -/
structure PartialTableState where
  pagination : Option PartialPaginationState := none
  sorting : Option ParsedSortState := none
  filtering : Option FilterState := none
deriving DecidableEq

/-- `parseStateFromUrl` from `urlSync.ts`. -/
def parseStateFromUrl (params : UrlParams) (config : UrlSyncConfig) : PartialTableState :=
  let paramNames := resolveParamNames config
  let pag :=
    if featureOn config.features (fun f => f.pagination) then
      let p := parsePaginationFromUrl params paramNames
      if p.pageIndex == none && p.pageSize == none then none else some p
    else none
  let sor :=
    if featureOn config.features (fun f => f.sorting) then
      parseSortingFromUrl params paramNames
    else none
  let fil :=
    if featureOn config.features (fun f => f.filtering) then
      let f := parseFilteringFromUrl params paramNames
      if f.globalFilter != "" || f.columnFilters.length != 0 then some f else none
    else none
  { pagination := pag, sorting := sor, filtering := fil }

/-- `serializePaginationToUrl`: only non-default values are written. -/
def serializePaginationToUrl (pagination : PaginationState) (params : UrlParams)
    (paramNames : ResolvedParamNames) : UrlParams :=
  let params :=
    if 0 < pagination.pageIndex then
      setParam params paramNames.page (intToDecString pagination.pageIndex)
    else deleteParam params paramNames.page
  if pagination.pageSize ≠ 10 then
    setParam params paramNames.pageSize (intToDecString pagination.pageSize)
  else deleteParam params paramNames.pageSize

/-- `serializeSortingToUrl`. -/
def serializeSortingToUrl (sorting : SortState) (params : UrlParams)
    (paramNames : ResolvedParamNames) : UrlParams :=
  if jsFalsyStrOpt sorting.columnId then
    deleteParam (deleteParam params paramNames.sortColumn) paramNames.sortDir
  else
    match sorting.columnId with
    | some c =>
      let params := setParam params paramNames.sortColumn c
      match sorting.direction with
      | some d => setParam params paramNames.sortDir (dirToString d)
      | none => deleteParam params paramNames.sortDir
    | none => deleteParam (deleteParam params paramNames.sortColumn) paramNames.sortDir

/-- One visit of the `params.forEach(...delete...)` loop. The iteration is
index-based over the live list (the WHATWG pair iterator), so deleting the
current entry shifts the remainder left and the next index skips an entry.
The fuel only bounds the number of visits; `params.length` visits always
suffice because the index grows by one per visit while the list never grows. -/
def forEachDeleteAux (p : String) : Nat → UrlParams → Nat → UrlParams
  | 0, params, _ => params
  | fuel + 1, params, i =>
    if h : i < params.length then
      let key := (params.get ⟨i, h⟩).1
      if jsStartsWith key p then forEachDeleteAux p fuel (deleteParam params key) (i + 1)
      else forEachDeleteAux p fuel params (i + 1)
    else params

/-- The column-filter removal loop of `serializeFilteringToUrl`:
`params.forEach((_, key) => { if (key.startsWith(prefix)) params.delete(key) })`. -/
def removeColumnFilterParams (p : String) (params : UrlParams) : UrlParams :=
  forEachDeleteAux p params.length params 0

/-- `serializeFilteringToUrl`. -/
def serializeFilteringToUrl (filtering : FilterState) (params : UrlParams)
    (paramNames : ResolvedParamNames) : UrlParams :=
  let params :=
    if filtering.globalFilter != "" then
      setParam params paramNames.globalFilter filtering.globalFilter
    else deleteParam params paramNames.globalFilter
  let params := removeColumnFilterParams paramNames.columnFilterPrefix params
  filtering.columnFilters.foldl (fun ps cf =>
    if cf.2 != "" then setParam ps (jsConcat paramNames.columnFilterPrefix cf.1) cf.2 else ps)
    params

/-- `serializeStateToUrl` from `urlSync.ts`. -/
def serializeStateToUrl (state : TableState) (currentParams : UrlParams)
    (config : UrlSyncConfig) : UrlParams :=
  let paramNames := resolveParamNames config
  let params := currentParams
  let params :=
    if featureOn config.features (fun f => f.pagination) then
      serializePaginationToUrl state.pagination params paramNames
    else params
  let params :=
    if featureOn config.features (fun f => f.sorting) then
      serializeSortingToUrl state.sorting params paramNames
    else params
  if featureOn config.features (fun f => f.filtering) then
    serializeFilteringToUrl state.filtering params paramNames
  else params

/-- The client pipeline of the state coordinator restricted to one state:
Filter, then Sort (default comparator), then Pagination, each with its own
server-mode flag. -/
def pipelineFSP (fs : FilterState) (st : SortState) (ps : PaginationState)
    (gv : Rec → String → Val) (smF smS smP : Option Bool) (data : List Rec) : List Rec :=
  getPaginatedData (applySort (applyFilters data fs gv defaultMatch smF) st gv none smS) ps smP

/-! Concrete fixtures used by counterexamples and witnesses. -/

/-- Example accessor: field lookup, missing fields read as `undefined` (the JS
behaviour of reading an absent property). -/
def lookupAccessor (r : Rec) (c : String) : Val :=
  match r.find? (fun e => e.1 == c) with
  | some e => e.2
  | none => .undefinedVal

/-- A record whose `v` field is the number 5. -/
def recNum5 : Rec := [("v", .num 5)]

/-- A record whose `v` field is `null`. -/
def recNull : Rec := [("v", .vnull)]

/-- A record whose `v` field is `undefined`. -/
def recUndef : Rec := [("v", .undefinedVal)]

/-- An all-default table state (as built by `createInitialTableState` with no
columns and no selection). -/
def initialTableState : TableState :=
  { sorting := createInitialSortState, pagination := ⟨0, 10, none, none⟩,
    filtering := createInitialFilterState, columnVisibility := [], columnOrder := [],
    selection := ⟨∅⟩ }

/-- A table state whose only non-default field is `pageSize = 0`. -/
def pageSizeZeroState : TableState :=
  { initialTableState with pagination := ⟨0, 0, none, none⟩ }

/-- A table state with one representative non-default value in every
URL-synchronised slice. -/
def richState : TableState :=
  { initialTableState with
    sorting := ⟨some "name", some .asc⟩,
    pagination := ⟨2, 5, none, none⟩,
    filtering := { globalFilter := "x", columnFilters := [("role", "Admin")] } }

/-- A table state whose selection holds the single row id `"r1"`. -/
def selR1State : TableState :=
  { initialTableState with selection := ⟨{Sum.inl "r1"}⟩ }

/-- The current page's row ids `["r1", "r2"]`. -/
def pageIdsR1R2 : List RowId := [Sum.inl "r1", Sum.inl "r2"]

/-- Observer: the `pageIndex` field of a parsed partial state, when present. -/
def partialPageIndex (pt : PartialTableState) : Option Int :=
  match pt.pagination with
  | some p => p.pageIndex
  | none => none

/-- Observer: the `pageSize` field of a parsed partial state, when present. -/
def partialPageSize (pt : PartialTableState) : Option Int :=
  match pt.pagination with
  | some p => p.pageSize
  | none => none

/-! Helper lemmas. -/

theorem foldl_insert_eq_union (P : List RowId) (S : Finset RowId) :
    P.foldl (fun s rid => insert rid s) S = S ∪ P.toFinset := by
  induction P generalizing S with
  | nil => simp
  | cons p ps ih =>
    simp only [List.foldl_cons, ih, List.toFinset_cons]
    ext x
    simp only [Finset.mem_union, Finset.mem_insert, List.mem_toFinset]
    tauto

theorem foldl_erase_eq_sdiff (P : List RowId) (S : Finset RowId) :
    P.foldl (fun s rid => s.erase rid) S = S \ P.toFinset := by
  induction P generalizing S with
  | nil => simp
  | cons p ps ih =>
    simp only [List.foldl_cons, ih, List.toFinset_cons]
    ext x
    simp only [Finset.mem_sdiff, Finset.mem_erase, Finset.mem_insert, List.mem_toFinset]
    tauto

/-! C10 -/

/-- C10: `setGlobalFilter` always returns a `FilterState` whose `columnFilters`
map is empty (and whose `globalFilter` is the given string): setting the global
filter discards all previously set column filters, whatever the prior state
was (the prior state is not even an input of `setGlobalFilter`). -/
theorem setGlobalFilter_clears_columnFilters (filter : String) :
    (setGlobalFilter filter).columnFilters = [] ∧
      (setGlobalFilter filter).globalFilter = filter :=
  ⟨rfl, rfl⟩

/-! C4 -/

/-- C4 counterexample: applying `toggleSort` FOUR times with the same column id
to the unsorted initial state does not return the initial `{null, null}` state
(it yields `{columnId := "a", direction := asc}`, because the cycle
none → asc → desc → none has length three). -/
theorem toggleSort_four_times_not_initial :
    toggleSort (toggleSort (toggleSort (toggleSort createInitialSortState "a") "a") "a") "a" ≠
      createInitialSortState := by decide

/-- C4 (amended): `toggleSort` cycles none → asc → desc → none per column, so
applying it THREE times with the same column id to the unsorted state returns
the initial `{null, null}` state; and from every state whose `columnId` differs
from `c`, `toggleSort` yields `{columnId := c, direction := asc}`. -/
theorem toggleSort_cycle (state : SortState) (c : String) (h : state.columnId ≠ some c) :
    toggleSort (toggleSort (toggleSort createInitialSortState c) c) c = createInitialSortState ∧
      toggleSort state c = { columnId := some c, direction := some .asc } := by
  refine ⟨?_, ?_⟩
  · simp [toggleSort, createInitialSortState]
  · simp [toggleSort, h]

/-- Witness for `toggleSort_cycle` at `state = {columnId := "b", asc}`, `c = "a"`. -/
theorem toggleSort_cycle_witness :
    toggleSort (toggleSort (toggleSort createInitialSortState "a") "a") "a" =
        createInitialSortState ∧
      toggleSort ⟨some "b", some .asc⟩ "a" = { columnId := some "a", direction := some .asc } :=
  toggleSort_cycle ⟨some "b", some .asc⟩ "a" (by decide)

/-! C6 -/

/-- C6 counterexample: with row id `"r1"` selected beforehand and a current
page `["r1", "r2"]`, selectAll followed by deselectAll empties the selection
instead of restoring the pre-selectAll set `{"r1"}`. -/
theorem selectAll_deselectAll_not_inverse :
    (handleDeselectAll (handleSelectAll selR1State pageIdsR1R2) pageIdsR1R2).selection ≠
      selR1State.selection := by decide

/-- C6 (amended): selectAll then deselectAll over the same current page leaves
exactly the pre-selectAll selection minus that page's row ids; in particular it
restores the pre-selectAll selection iff no current-page row id was already
selected (the guaranteed-restoration form needs that disjointness). -/
theorem selectAll_deselectAll_sdiff (state : TableState) (pageRowIds : List RowId) :
    (handleDeselectAll (handleSelectAll state pageRowIds) pageRowIds).selection.selectedRowIds =
        state.selection.selectedRowIds \ pageRowIds.toFinset ∧
      (Disjoint state.selection.selectedRowIds pageRowIds.toFinset →
        (handleDeselectAll (handleSelectAll state pageRowIds) pageRowIds).selection.selectedRowIds =
          state.selection.selectedRowIds) := by
  have hmain :
      (handleDeselectAll (handleSelectAll state pageRowIds) pageRowIds).selection.selectedRowIds =
        state.selection.selectedRowIds \ pageRowIds.toFinset := by
    simp only [handleDeselectAll, handleSelectAll, selectRows, deselectRows, updateSelection,
      foldl_insert_eq_union, foldl_erase_eq_sdiff]
    ext x
    simp only [Finset.mem_sdiff, Finset.mem_union, List.mem_toFinset]
    tauto
  refine ⟨hmain, fun hdisj => ?_⟩
  rw [hmain]
  exact Finset.sdiff_eq_self_iff_disjoint.mpr hdisj

/-- Witness for `selectAll_deselectAll_sdiff`: selection `{"z"}`, page
`["r1", "r2"]` — disjoint, so the selection is restored exactly. -/
theorem selectAll_deselectAll_sdiff_witness :
    (handleDeselectAll
        (handleSelectAll { initialTableState with selection := ⟨{Sum.inl "z"}⟩ } pageIdsR1R2)
        pageIdsR1R2).selection.selectedRowIds =
      ({Sum.inl "z"} : Finset RowId) :=
  (selectAll_deselectAll_sdiff { initialTableState with selection := ⟨{Sum.inl "z"}⟩ }
    pageIdsR1R2).2 (by decide)

/-! C8 -/

/-- C8: evaluating `serializeStateToUrl` on the all-default state and starting
parameters `filter_a=1&filter_b=2` leaves the stale column-filter key
`filter_b` in the output even though the current filter state has no column
filters: the removal loop deletes during an index-based `forEach` iteration of
the live list, so deleting `filter_a` shifts `filter_b` onto the already
visited index and it is skipped. -/
theorem serializeStateToUrl_stale_filter_key :
    serializeStateToUrl initialTableState [("filter_a", "1"), ("filter_b", "2")]
        defaultUrlSyncConfig = [("filter_b", "2")] ∧
      initialTableState.filtering.columnFilters = [] := by decide

/-! C1 -/

/-- C1: with the default matcher and no server mode, `applyFilters` implements
the documented quirk: when at least one column-filter key is present, the
global filter is ignored and a record is kept iff every non-blank column
filter matches (case-insensitive substring via `defaultMatch`) the value that
column's accessor extracts, all AND-combined; when the global filter is
non-blank and no column-filter keys are present, a record is kept iff at least
one of its field values matches the global filter. -/
theorem applyFilters_quirk (data : List Rec) (fs : FilterState)
    (getValue : Rec → String → Val) :
    (fs.columnFilters ≠ [] →
      applyFilters data fs getValue defaultMatch none =
        data.filter (fun item => fs.columnFilters.all (fun cf =>
          if jsTrim cf.2 != "" then defaultMatch (getValue item cf.1) cf.2 else true))) ∧
    (jsTrim fs.globalFilter ≠ "" → fs.columnFilters = [] →
      applyFilters data fs getValue defaultMatch none =
        data.filter (fun item =>
          (objectValues item).any (fun v => defaultMatch v fs.globalFilter))) := by
  have hserver : ¬ ((none : Option Bool) = some true) := by simp
  constructor
  · intro hcf
    by_cases hact : isFilterActive fs = false
    · have hblank : ∀ cf ∈ fs.columnFilters, (jsTrim cf.2 != "") = false := by
        have := hact
        simp only [isFilterActive, Bool.or_eq_false_iff, List.any_eq_false] at this
        intro cf hmem
        simpa using this.2 cf hmem
      rw [applyFilters, if_neg hserver, if_pos hact]
      refine (List.filter_eq_self.mpr ?_).symm
      intro item _
      rw [List.all_eq_true]
      intro cf hmem
      rw [hblank cf hmem]
      rfl
    · rw [applyFilters, if_neg hserver, if_neg hact]
      refine List.filter_congr ?_
      intro item _
      have hlen : (fs.columnFilters.length == 0) = false := by
        simp [List.length_eq_zero, hcf]
      rw [filterPred, hlen]
      by_cases hg : (jsTrim fs.globalFilter != "") = true
      · rw [if_pos hg, if_neg (by simp), Bool.true_and]
      · rw [if_neg hg, Bool.true_and]
  · intro hglob hcf
    have hg : (jsTrim fs.globalFilter != "") = true := by simpa using hglob
    have hact : isFilterActive fs = false → False := by
      intro h
      simp only [isFilterActive, Bool.or_eq_false_iff] at h
      rw [h.1] at hg
      exact Bool.false_ne_true hg
    rw [applyFilters, if_neg hserver, if_neg hact]
    refine List.filter_congr ?_
    intro item _
    rw [filterPred, hcf]
    simp [hg]

/-- Witness for `applyFilters_quirk`: one record, a column filter on `role`
and a (ignored) global filter; and separately a global-only filter state. -/
theorem applyFilters_quirk_witness :
    applyFilters [[("role", Val.str "Admin")], [("role", Val.str "User")]]
        { globalFilter := "zzz", columnFilters := [("role", "adm")] }
        lookupAccessor defaultMatch none = [[("role", Val.str "Admin")]] ∧
      applyFilters [[("role", Val.str "Admin")], [("x", Val.str "boring")]]
        { globalFilter := "adm", columnFilters := [] }
        lookupAccessor defaultMatch none = [[("role", Val.str "Admin")]] := by
  constructor
  · rw [(applyFilters_quirk [[("role", Val.str "Admin")], [("role", Val.str "User")]]
      { globalFilter := "zzz", columnFilters := [("role", "adm")] } lookupAccessor).1
      (by decide)]
    decide
  · rw [(applyFilters_quirk [[("role", Val.str "Admin")], [("x", Val.str "boring")]]
      { globalFilter := "adm", columnFilters := [] } lookupAccessor).2
      (by decide) rfl]
    decide

/-! C9 -/

theorem parsePagination_pageIndex_none (params : UrlParams) (names : ResolvedParamNames)
    (s : String) (hs : getParam params names.page = some s)
    (hbad : jsParseInt s = none ∨ ∃ v, jsParseInt s = some v ∧ v < 0) :
    (parsePaginationFromUrl params names).pageIndex = none := by
  simp only [parsePaginationFromUrl, hs]
  by_cases hse : (s != "") = true
  · rw [if_pos hse]
    rcases hbad with hnan | ⟨v, hv, hneg⟩
    · rw [hnan]
    · rw [hv]
      show (if 0 ≤ v then some v else none) = none
      rw [if_neg (not_le.mpr hneg)]
  · rw [if_neg hse]

theorem parsePagination_pageSize_none (params : UrlParams) (names : ResolvedParamNames)
    (s : String) (hs : getParam params names.pageSize = some s)
    (hbad : jsParseInt s = none ∨ ∃ v, jsParseInt s = some v ∧ v ≤ 0) :
    (parsePaginationFromUrl params names).pageSize = none := by
  simp only [parsePaginationFromUrl, hs]
  by_cases hse : (s != "") = true
  · rw [if_pos hse]
    rcases hbad with hnan | ⟨v, hv, hnonpos⟩
    · rw [hnan]
    · rw [hv]
      show (if 0 < v then some v else none) = none
      rw [if_neg (not_lt.mpr hnonpos)]
  · rw [if_neg hse]

theorem partialPageIndex_of_parse_none (params : UrlParams) (config : UrlSyncConfig)
    (h : (parsePaginationFromUrl params (resolveParamNames config)).pageIndex = none) :
    partialPageIndex (parseStateFromUrl params config) = none := by
  simp only [parseStateFromUrl, partialPageIndex]
  by_cases hf : (featureOn config.features fun f => f.pagination) = true
  · rw [if_pos hf]
    by_cases hb : ((parsePaginationFromUrl params (resolveParamNames config)).pageIndex == none &&
        (parsePaginationFromUrl params (resolveParamNames config)).pageSize == none) = true
    · rw [if_pos hb]
    · rw [if_neg hb]
      exact h
  · rw [if_neg hf]

theorem partialPageSize_of_parse_none (params : UrlParams) (config : UrlSyncConfig)
    (h : (parsePaginationFromUrl params (resolveParamNames config)).pageSize = none) :
    partialPageSize (parseStateFromUrl params config) = none := by
  simp only [parseStateFromUrl, partialPageSize]
  by_cases hf : (featureOn config.features fun f => f.pagination) = true
  · rw [if_pos hf]
    by_cases hb : ((parsePaginationFromUrl params (resolveParamNames config)).pageIndex == none &&
        (parsePaginationFromUrl params (resolveParamNames config)).pageSize == none) = true
    · rw [if_pos hb]
    · rw [if_neg hb]
      exact h
  · rw [if_neg hf]

/-- C9 (amended): `parseStateFromUrl` is a total function that never throws,
and it ignores bad numeric parameters in the `parseInt` sense: a `page`
parameter whose `parseInt(·, 10)` value is `NaN` or negative contributes no
`pageIndex` field, a `pageSize` parameter whose `parseInt` value is `NaN` or
non-positive contributes no `pageSize` field (note `parseInt` accepts any
string with a leading digit run, e.g. `"5.7"` is read as `5`, so such strings
are NOT ignored), and a sort-direction value outside `{asc, desc}`
(case-insensitive) is treated as absent (`direction = null`). -/
theorem parseStateFromUrl_ignores_malformed (params : UrlParams) (config : UrlSyncConfig) :
    (∀ s, getParam params (resolveParamNames config).page = some s →
      (jsParseInt s = none ∨ ∃ v, jsParseInt s = some v ∧ v < 0) →
      partialPageIndex (parseStateFromUrl params config) = none) ∧
    (∀ s, getParam params (resolveParamNames config).pageSize = some s →
      (jsParseInt s = none ∨ ∃ v, jsParseInt s = some v ∧ v ≤ 0) →
      partialPageSize (parseStateFromUrl params config) = none) ∧
    (∀ c s, getParam params (resolveParamNames config).sortColumn = some c → c ≠ "" →
      featureOn config.features (fun f => f.sorting) = true →
      getParam params (resolveParamNames config).sortDir = some s →
      jsToLower s ≠ "asc" → jsToLower s ≠ "desc" →
      (parseStateFromUrl params config).sorting = some ⟨c, none⟩) := by
  refine ⟨fun s hs hbad => partialPageIndex_of_parse_none params config
      (parsePagination_pageIndex_none params _ s hs hbad),
    fun s hs hbad => partialPageSize_of_parse_none params config
      (parsePagination_pageSize_none params _ s hs hbad),
    fun c s hc hcne hfeat hs hlow1 hlow2 => ?_⟩
  have hsort : parseSortingFromUrl params (resolveParamNames config) = some ⟨c, none⟩ := by
    simp only [parseSortingFromUrl, hc, parseDirection, hs]
    rw [if_neg (by simpa using hcne), if_neg (by simpa using hlow1),
      if_neg (by simpa using hlow2)]
  show (parseStateFromUrl params config).sorting = some ⟨c, none⟩
  simp only [parseStateFromUrl]
  rw [if_pos hfeat, hsort]

/-- C9 counterexample: a `page` value `"5.7"` is not a non-negative integer,
yet it is not ignored: the parsed partial state carries `pageIndex = 5`
(`parseInt("5.7", 10) = 5`). -/
theorem parseStateFromUrl_accepts_fractional_page :
    parseStateFromUrl [("page", "5.7")] defaultUrlSyncConfig =
      { pagination := some { pageIndex := some 5, pageSize := none },
        sorting := none, filtering := none } := by decide

/-- Witness for `parseStateFromUrl_ignores_malformed` on
`page=abc&pageSize=-2&sort=c&sortDir=down`. -/
theorem parseStateFromUrl_ignores_malformed_witness :
    partialPageIndex (parseStateFromUrl
        [("page", "abc"), ("pageSize", "-2"), ("sort", "c"), ("sortDir", "down")]
        defaultUrlSyncConfig) = none ∧
      partialPageSize (parseStateFromUrl
        [("page", "abc"), ("pageSize", "-2"), ("sort", "c"), ("sortDir", "down")]
        defaultUrlSyncConfig) = none ∧
      (parseStateFromUrl
        [("page", "abc"), ("pageSize", "-2"), ("sort", "c"), ("sortDir", "down")]
        defaultUrlSyncConfig).sorting = some ⟨"c", none⟩ :=
  ⟨(parseStateFromUrl_ignores_malformed _ _).1 "abc" (by decide) (Or.inl (by decide)),
    (parseStateFromUrl_ignores_malformed _ _).2.1 "-2" (by decide)
      (Or.inr ⟨-2, by decide, by decide⟩),
    (parseStateFromUrl_ignores_malformed _ _).2.2 "c" "down" (by decide) (by decide)
      (by decide) (by decide) (by decide) (by decide)⟩

/-! Sorting machinery: permutation, stability and adjacency facts about
`jsSort`. -/

theorem insRev_perm {α : Type} (cmp : α → α → Int) (x : α) (l : List α) :
    (insRev cmp x l).Perm (x :: l) := by
  induction l with
  | nil => exact List.Perm.refl _
  | cons z zs ih =>
    rw [insRev]
    by_cases h : cmp x z < 0
    · rw [if_pos h]
      exact (ih.cons z).trans (List.Perm.swap x z zs)
    · rw [if_neg h]

theorem insRev_mem {α : Type} (cmp : α → α → Int) (x : α) (l : List α) (w : α)
    (hw : w ∈ insRev cmp x l) : w = x ∨ w ∈ l := by
  have := (insRev_perm cmp x l).mem_iff.mp hw
  simpa using this

theorem foldl_insRev_perm {α : Type} (cmp : α → α → Int) (l acc : List α) :
    (l.foldl (fun a x => insRev cmp x a) acc).Perm (acc ++ l) := by
  induction l generalizing acc with
  | nil => simp
  | cons x xs ih =>
    rw [List.foldl_cons]
    refine (ih (insRev cmp x acc)).trans ?_
    refine (List.Perm.append_right xs (insRev_perm cmp x acc)).trans ?_
    exact List.perm_middle.symm.trans (by simp [List.perm_middle])

theorem jsSort_perm {α : Type} (cmp : α → α → Int) (l : List α) :
    (jsSort cmp l).Perm l := by
  rw [jsSort]
  refine (List.reverse_perm _).trans ?_
  simpa using foldl_insRev_perm cmp l []

theorem insRev_pairwise {α : Type} (cmp : α → α → Int) (S : α → α → Prop) (x : α)
    (l : List α) (hl : l.Pairwise S) (hnew : ∀ z ∈ l, S x z)
    (hswap : ∀ z ∈ l, cmp x z < 0 → S z x) :
    (insRev cmp x l).Pairwise S := by
  induction l with
  | nil => simp [insRev]
  | cons z zs ih =>
    rw [insRev]
    rcases List.pairwise_cons.mp hl with ⟨hz, hzs⟩
    by_cases h : cmp x z < 0
    · rw [if_pos h]
      refine List.pairwise_cons.mpr ⟨?_, ?_⟩
      · intro w hw
        rcases insRev_mem cmp x zs w hw with rfl | hmem
        · exact hswap z (by simp) h
        · exact hz w hmem
      · exact ih hzs (fun w hw => hnew w (by simp [hw])) (fun w hw => hswap w (by simp [hw]))
    · rw [if_neg h]
      exact List.pairwise_cons.mpr ⟨fun w hw => hnew w hw, hl⟩

theorem foldl_insRev_pairwise {α : Type} (cmp : α → α → Int) (idx : α → Nat)
    (l acc : List α) (hacc : acc.Pairwise (fun a b => idx b < idx a ∨ cmp b a < 0))
    (hlt : ∀ x ∈ l, ∀ y ∈ acc, idx y < idx x)
    (hl : l.Pairwise (fun a b => idx a < idx b)) :
    (l.foldl (fun a x => insRev cmp x a) acc).Pairwise
      (fun a b => idx b < idx a ∨ cmp b a < 0) := by
  induction l generalizing acc with
  | nil => simpa using hacc
  | cons x xs ih =>
    rw [List.foldl_cons]
    rcases List.pairwise_cons.mp hl with ⟨hx, hxs⟩
    refine ih (insRev cmp x acc) ?_ ?_ hxs
    · refine insRev_pairwise cmp _ x acc hacc ?_ ?_
      · intro z hz
        exact Or.inl (hlt x (by simp) z hz)
      · intro z _ hcz
        exact Or.inr hcz
    · intro w hw y hy
      rcases insRev_mem cmp x acc y hy with rfl | hmem
      · exact hx w hw
      · exact hlt w (by simp [hw]) y hmem

/-- Stability of the `Array.prototype.sort` model: when the input is tagged
with strictly increasing indices, any out-of-input-order pair in the output is
justified by a strictly negative comparator value. -/
theorem jsSort_stable_pairwise {α : Type} (cmp : α → α → Int) (idx : α → Nat)
    (l : List α) (hl : l.Pairwise (fun a b => idx a < idx b)) :
    (jsSort cmp l).Pairwise (fun a b => idx a < idx b ∨ cmp a b < 0) := by
  rw [jsSort]
  rw [List.pairwise_reverse]
  exact foldl_insRev_pairwise cmp idx l [] (by simp) (by simp) hl

theorem insRev_chain' {α : Type} (cmp : α → α → Int) (x : α) (l : List α)
    (hl : l.Chain' (fun p q => 0 ≤ cmp p q ∨ cmp q p < 0)) :
    (insRev cmp x l).Chain' (fun p q => 0 ≤ cmp p q ∨ cmp q p < 0) := by
  induction l with
  | nil => simp [insRev]
  | cons z zs ih =>
    rw [insRev]
    rcases List.chain'_cons'.mp hl with ⟨hz, hzs⟩
    by_cases h : cmp x z < 0
    · rw [if_pos h]
      refine List.chain'_cons'.mpr ⟨?_, ih hzs⟩
      intro y hy
      cases zs with
      | nil =>
        simp only [insRev, List.head?_cons, Option.mem_def, Option.some.injEq] at hy
        subst hy
        exact Or.inr h
      | cons w ws =>
        rw [insRev] at hy
        by_cases hw : cmp x w < 0
        · rw [if_pos hw] at hy
          simp only [List.head?_cons, Option.mem_def, Option.some.injEq] at hy
          subst hy
          exact hz w (by simp)
        · rw [if_neg hw] at hy
          simp only [List.head?_cons, Option.mem_def, Option.some.injEq] at hy
          subst hy
          exact Or.inr h
    · rw [if_neg h]
      refine List.chain'_cons.mpr ⟨Or.inl (not_lt.mp h), hl⟩

theorem foldl_insRev_chain' {α : Type} (cmp : α → α → Int) (l acc : List α)
    (hacc : acc.Chain' (fun p q => 0 ≤ cmp p q ∨ cmp q p < 0)) :
    (l.foldl (fun a x => insRev cmp x a) acc).Chain'
      (fun p q => 0 ≤ cmp p q ∨ cmp q p < 0) := by
  induction l generalizing acc with
  | nil => simpa using hacc
  | cons x xs ih =>
    rw [List.foldl_cons]
    exact ih (insRev cmp x acc) (insRev_chain' cmp x acc hacc)

/-- Adjacency discipline of the sorted output: every adjacent pair `(a, b)` of
`jsSort cmp l` satisfies `0 ≤ cmp b a ∨ cmp a b < 0`. -/
theorem jsSort_chain' {α : Type} (cmp : α → α → Int) (l : List α) :
    (jsSort cmp l).Chain' (fun a b => 0 ≤ cmp b a ∨ cmp a b < 0) := by
  rw [jsSort, List.chain'_reverse]
  exact foldl_insRev_chain' cmp l [] (by simp)

/-- A chained transitive relation holds pairwise. -/
theorem chain'_pairwise_of_trans {α : Type} (R : α → α → Prop)
    (htrans : ∀ a b c, R a b → R b c → R a c) (l : List α) (h : l.Chain' R) :
    l.Pairwise R := by
  letI : IsTrans α R := ⟨fun a b c => htrans a b c⟩
  exact List.chain'_iff_pairwise.mp h

/-- Indices of `List.enum` are strictly increasing. -/
theorem enum_pairwise_fst_lt {α : Type} (l : List α) :
    l.enum.Pairwise (fun a b => a.1 < b.1) := by
  rw [List.pairwise_iff_getElem]
  intro i j hi hj hij
  have hi' : i < l.length := by simpa using hi
  have hj' : j < l.length := by simpa using hj
  simpa [List.getElem_enum] using hij

/-! C7 -/

/-- C7: `applySort` is stable. Tagging the input records with their positions
(`List.enum`), the output is a permutation of the input, and any two output
positions `i < j` whose extracted sort values compare equal (value `0`) under
the resolved comparator `createComparator direction (compareFn ?? defaultCompare)`
appear in input order (`fst` strictly increasing). When sort is inactive or in
server mode the output is the input itself, so the same statement covers every
sort state. -/
theorem applySort_stable (data : List Rec) (st : SortState) (gv : Rec → String → Val)
    (cmpFn : Option (Val → Val → Int)) (sm : Option Bool) (out : List (Nat × Rec))
    (hout : out = applySort data.enum st (fun p col => gv p.2 col) cmpFn sm) :
    out.Perm data.enum ∧
      ∀ c d, st.columnId = some c → st.direction = some d →
        ∀ i j : Fin out.length, (i : Nat) < (j : Nat) →
          createComparator d (cmpFn.getD defaultCompare)
              (gv (out.get i).2 c) (gv (out.get j).2 c) = 0 →
          (out.get i).1 < (out.get j).1 := by
  have henum : (data.enum).Pairwise (fun a b : Nat × Rec => a.1 < b.1) :=
    enum_pairwise_fst_lt data
  -- the trivial (copy) case
  have hcopy : ∀ (houte : out = data.enum),
      out.Perm data.enum ∧
        ∀ c d, st.columnId = some c → st.direction = some d →
          ∀ i j : Fin out.length, (i : Nat) < (j : Nat) →
            createComparator d (cmpFn.getD defaultCompare)
                (gv (out.get i).2 c) (gv (out.get j).2 c) = 0 →
            (out.get i).1 < (out.get j).1 := by
    intro houte
    subst houte
    refine ⟨List.Perm.refl _, ?_⟩
    intro c d _ _ i j hij _
    exact List.pairwise_iff_get.mp henum i j hij
  rw [applySort] at hout
  by_cases h1 : sm = some true
  · exact hcopy (by rwa [if_pos h1] at hout)
  · rw [if_neg h1] at hout
    by_cases h2 : (isSortActive st = false || jsFalsyStrOpt st.columnId) = true
    · exact hcopy (by rwa [if_pos h2] at hout)
    · rw [if_neg h2] at hout
      simp only [Bool.or_eq_true, decide_eq_true_eq, not_or, Bool.not_eq_true] at h2
      have hact : isSortActive st = true := by
        rcases Bool.eq_false_or_eq_true (isSortActive st) with h | h
        · exact h
        · exact absurd h h2.1
      have hboth := hact
      rw [isSortActive, Bool.and_eq_true] at hboth
      rcases Option.isSome_iff_exists.mp hboth.1 with ⟨c0, hc0⟩
      rcases Option.isSome_iff_exists.mp hboth.2 with ⟨d0, hd0⟩
      rw [hc0, hd0] at hout
      simp only at hout
      constructor
      · rw [hout]
        exact jsSort_perm _ _
      · intro c d hc hd i j hij hcmp
        rw [hc0] at hc
        rw [hd0] at hd
        injection hc with hcc
        injection hd with hdd
        subst hcc
        subst hdd
        have hpw := jsSort_stable_pairwise
          (fun a b : Nat × Rec =>
            createComparator d0 (cmpFn.getD defaultCompare) (gv a.2 c0) (gv b.2 c0))
          Prod.fst data.enum henum
        rw [← hout] at hpw
        rcases List.pairwise_iff_get.mp hpw i j hij with hlt | hneg
        · exact hlt
        · have hneg2 : createComparator d0 (cmpFn.getD defaultCompare)
              (gv (out.get i).2 c0) (gv (out.get j).2 c0) < 0 := hneg
          rw [hcmp] at hneg2
          exact absurd hneg2 (by norm_num)

/-- Witness for `applySort_stable`: two records with the same sort value keep
their input order after sorting ascending on `v`. -/
theorem applySort_stable_witness :
    (applySort ([recNum5, recNum5] : List Rec).enum ⟨some "v", some .asc⟩
        (fun p col => lookupAccessor p.2 col) none none).Perm
      ([recNum5, recNum5] : List Rec).enum ∧
    ((applySort ([recNum5, recNum5] : List Rec).enum ⟨some "v", some .asc⟩
        (fun p col => lookupAccessor p.2 col) none none).get ⟨0, by decide⟩).1 <
      ((applySort ([recNum5, recNum5] : List Rec).enum ⟨some "v", some .asc⟩
        (fun p col => lookupAccessor p.2 col) none none).get ⟨1, by decide⟩).1 := by
  have h := applySort_stable [recNum5, recNum5] ⟨some "v", some .asc⟩ lookupAccessor
    none none _ rfl
  exact ⟨h.1, h.2 "v" .asc rfl rfl ⟨0, by decide⟩ ⟨1, by decide⟩ (by decide) (by decide)⟩

/-! C2 -/

theorem applySort_active_eq {T : Type} (data : List T) (c : String) (hc : c ≠ "")
    (d : SortDirection) (gv : T → String → Val) (cmpFn : Option (Val → Val → Int)) :
    applySort data ⟨some c, some d⟩ gv cmpFn none =
      jsSort (fun a b =>
        createComparator d (cmpFn.getD defaultCompare) (gv a c) (gv b c)) data := by
  rw [applySort]
  rw [if_neg (by simp : ¬ ((none : Option Bool) = some true))]
  rw [if_neg (by simp [isSortActive, jsFalsyStrOpt, hc])]

theorem createComparator_asc (f : Val → Val → Int) (a b : Val) :
    createComparator .asc f a b = f a b := rfl

theorem createComparator_desc (f : Val → Val → Int) (a b : Val) :
    createComparator .desc f a b = -(f a b) := rfl

theorem defaultCompare_nullish_defined (x y : Val) (hx : x.isNullish = true)
    (hy : y.isNullish = false) : defaultCompare x y = 1 ∧ defaultCompare y x = -1 := by
  cases x <;> cases y <;> simp_all [defaultCompare, Val.isNullish]

/-- C2 (amended): with the default comparator and a non-empty sort column,
`applySort` in ASCENDING direction places records with null/undefined
extracted values after all records with defined values (nullish positions are
upward closed), but in DESCENDING direction the comparator is negated wholesale,
so null/undefined sort FIRST (nullish positions are downward closed); and
`defaultCompare` yields 0 on two nulls or two undefineds, while null against
undefined yields 1 in either argument order. -/
theorem applySort_nullish_placement (data : List Rec) (gv : Rec → String → Val)
    (c : String) (hc : c ≠ "") (outA outD : List Rec)
    (hA : outA = applySort data ⟨some c, some .asc⟩ gv none none)
    (hD : outD = applySort data ⟨some c, some .desc⟩ gv none none) :
    (∀ i j : Fin outA.length, (i : Nat) < (j : Nat) →
        (gv (outA.get i) c).isNullish = true → (gv (outA.get j) c).isNullish = true) ∧
      (∀ i j : Fin outD.length, (i : Nat) < (j : Nat) →
        (gv (outD.get j) c).isNullish = true → (gv (outD.get i) c).isNullish = true) ∧
      defaultCompare .vnull .vnull = 0 ∧ defaultCompare .undefinedVal .undefinedVal = 0 ∧
      defaultCompare .vnull .undefinedVal = 1 ∧ defaultCompare .undefinedVal .vnull = 1 := by
  rw [applySort_active_eq data c hc .asc gv none] at hA
  rw [applySort_active_eq data c hc .desc gv none] at hD
  refine ⟨?_, ?_, by decide, by decide, by decide, by decide⟩
  · -- ascending: being nullish propagates rightwards
    have hch := jsSort_chain'
      (fun a b => createComparator .asc ((none : Option (Val → Val → Int)).getD defaultCompare)
        (gv a c) (gv b c)) data
    have himp : ∀ a b : Rec,
        (0 ≤ createComparator .asc ((none : Option (Val → Val → Int)).getD defaultCompare)
            (gv b c) (gv a c) ∨
          createComparator .asc ((none : Option (Val → Val → Int)).getD defaultCompare)
            (gv a c) (gv b c) < 0) →
        ((gv a c).isNullish = true → (gv b c).isNullish = true) := by
      intro a b hab hna
      by_cases hnb : (gv b c).isNullish = true
      · exact hnb
      · exfalso
        have hnb2 : (gv b c).isNullish = false := by
          rcases Bool.eq_false_or_eq_true ((gv b c).isNullish) with h | h
          · exact absurd h hnb
          · exact h
        rcases hab with h | h
        · rw [createComparator_asc, Option.getD_none] at h
          rw [(defaultCompare_nullish_defined (gv a c) (gv b c) hna hnb2).2] at h
          norm_num at h
        · rw [createComparator_asc, Option.getD_none] at h
          rw [(defaultCompare_nullish_defined (gv a c) (gv b c) hna hnb2).1] at h
          norm_num at h
    have hpw := chain'_pairwise_of_trans _
      (fun a b b2 hab hbc hna => hbc (hab hna)) _ (hch.imp (fun a b => himp a b))
    rw [← hA] at hpw
    intro i j hij hni
    exact List.pairwise_iff_get.mp hpw i j hij hni
  · -- descending: being nullish propagates leftwards
    have hch := jsSort_chain'
      (fun a b => createComparator .desc ((none : Option (Val → Val → Int)).getD defaultCompare)
        (gv a c) (gv b c)) data
    have himp : ∀ a b : Rec,
        (0 ≤ createComparator .desc ((none : Option (Val → Val → Int)).getD defaultCompare)
            (gv b c) (gv a c) ∨
          createComparator .desc ((none : Option (Val → Val → Int)).getD defaultCompare)
            (gv a c) (gv b c) < 0) →
        ((gv a c).isNullish = false → (gv b c).isNullish = false) := by
      intro a b hab hna
      by_cases hnb : (gv b c).isNullish = true
      · exfalso
        rcases hab with h | h
        · rw [createComparator_desc, Option.getD_none] at h
          rw [(defaultCompare_nullish_defined (gv b c) (gv a c) hnb hna).1] at h
          norm_num at h
        · rw [createComparator_desc, Option.getD_none] at h
          rw [(defaultCompare_nullish_defined (gv b c) (gv a c) hnb hna).2] at h
          norm_num at h
      · rcases Bool.eq_false_or_eq_true ((gv b c).isNullish) with h | h
        · exact absurd h hnb
        · exact h
    have hpw := chain'_pairwise_of_trans _
      (fun a b b2 hab hbc hna => hbc (hab hna)) _ (hch.imp (fun a b => himp a b))
    rw [← hD] at hpw
    intro i j hij hnj
    by_cases hni : (gv (outD.get i) c).isNullish = true
    · exact hni
    · exfalso
      have hni2 : (gv (outD.get i) c).isNullish = false := by
        rcases Bool.eq_false_or_eq_true ((gv (outD.get i) c).isNullish) with h | h
        · exact absurd h hni
        · exact h
      have := List.pairwise_iff_get.mp hpw i j hij hni2
      rw [hnj] at this
      simp at this

/-- C2 counterexample: sorting `[{v: 5}, {v: null}]` DESCENDING by `v` with the
default comparator puts the null record FIRST, not last: the descending
comparator is the negation of `defaultCompare`, which negates the
null-sorts-last convention as well. -/
theorem applySort_desc_nullish_first :
    applySort [recNum5, recNull] ⟨some "v", some .desc⟩ lookupAccessor none none =
        [recNull, recNum5] ∧
      (lookupAccessor recNull "v").isNullish = true ∧
      (lookupAccessor recNum5 "v").isNullish = false := by decide

/-- Witness for `applySort_nullish_placement` on `[{v: null}, {v: undefined}]`,
column `"v"`. -/
theorem applySort_nullish_placement_witness :
    ((lookupAccessor ((applySort [recNull, recUndef] ⟨some "v", some .asc⟩
          lookupAccessor none none).get ⟨1, by decide⟩) "v").isNullish = true) ∧
      defaultCompare .vnull .undefinedVal = 1 := by
  have h := applySort_nullish_placement [recNull, recUndef] lookupAccessor "v"
    (by decide) _ _ rfl rfl
  exact ⟨h.1 ⟨0, by decide⟩ ⟨1, by decide⟩ (by decide) (by decide), h.2.2.2.2.1⟩

/-! C5 machinery: pagination as a prefix, sorted-output fixpoints, comparator
asymmetry. -/

theorem getPaginatedData_eq_take {T : Type} (d : List T) (ps : PaginationState)
    (smP : Option Bool) (h0 : ps.pageIndex = 0) (hps : 0 ≤ ps.pageSize)
    (hsm : ¬ smP = some true) :
    getPaginatedData d ps smP = d.take (min ps.pageSize (d.length : Int)).toNat := by
  have hlen : (0 : Int) ≤ (d.length : Int) := Int.natCast_nonneg _
  rw [getPaginatedData, if_neg hsm]
  simp only [jsSlice, getPageStartIndex, getPageEndIndex, h0, zero_mul, zero_add]
  rw [if_neg (lt_irrefl (0 : Int))]
  rw [if_neg (not_lt.mpr (le_min hps hlen))]
  rw [min_eq_left hlen, min_eq_left (min_le_right ps.pageSize ((d.length : Int)))]
  simp

theorem getPaginatedData_prefix {T : Type} (d : List T) (ps : PaginationState)
    (smP : Option Bool) (h0 : ps.pageIndex = 0) (hps : 0 ≤ ps.pageSize) :
    ∃ k, getPaginatedData d ps smP = d.take k := by
  by_cases hsm : smP = some true
  · exact ⟨d.length, by rw [getPaginatedData, if_pos hsm, List.take_length]⟩
  · exact ⟨_, getPaginatedData_eq_take d ps smP h0 hps hsm⟩

theorem getPaginatedData_idem {T : Type} (d : List T) (ps : PaginationState)
    (smP : Option Bool) (h0 : ps.pageIndex = 0) (hps : 0 ≤ ps.pageSize) :
    getPaginatedData (getPaginatedData d ps smP) ps smP = getPaginatedData d ps smP := by
  by_cases hsm : smP = some true
  · rw [getPaginatedData, if_pos hsm]
  · rw [getPaginatedData_eq_take d ps smP h0 hps hsm,
      getPaginatedData_eq_take _ ps smP h0 hps hsm]
    refine List.take_of_length_le ?_
    have hq : ((d.take (min ps.pageSize (d.length : Int)).toNat).length : Int) ≤
        ps.pageSize := by
      rw [List.length_take]
      have h1 : (min (min ps.pageSize (d.length : Int)).toNat d.length : Nat) ≤
          (min ps.pageSize (d.length : Int)).toNat := min_le_left _ _
      have hm : ((min ps.pageSize (d.length : Int)).toNat : Int) =
          min ps.pageSize (d.length : Int) :=
        Int.toNat_of_nonneg (le_min hps (Int.natCast_nonneg _))
      calc ((min (min ps.pageSize (d.length : Int)).toNat d.length : Nat) : Int)
          ≤ ((min ps.pageSize (d.length : Int)).toNat : Int) := by exact_mod_cast h1
        _ = min ps.pageSize (d.length : Int) := hm
        _ ≤ ps.pageSize := min_le_left _ _
    rw [min_eq_right hq, Int.toNat_natCast]

theorem mem_applySort {T : Type} (d : List T) (st : SortState) (gv : T → String → Val)
    (cmpFn : Option (Val → Val → Int)) (sm : Option Bool) (x : T)
    (hx : x ∈ applySort d st gv cmpFn sm) : x ∈ d := by
  rw [applySort] at hx
  by_cases h1 : sm = some true
  · rwa [if_pos h1] at hx
  · rw [if_neg h1] at hx
    by_cases h2 : (isSortActive st = false || jsFalsyStrOpt st.columnId) = true
    · rwa [if_pos h2] at hx
    · rw [if_neg h2] at hx
      obtain ⟨oc, od⟩ := st
      cases oc with
      | none => exact hx
      | some c =>
        cases od with
        | none => exact hx
        | some dd => exact (jsSort_perm _ d).mem_iff.mp hx

theorem foldl_insRev_of_chain {α : Type} (cmp : α → α → Int) (l : List α) : ∀ (a : α)
    (acc : List α), (a :: l).Chain' (fun p q => 0 ≤ cmp q p) →
    l.foldl (fun ac x => insRev cmp x ac) (a :: acc) = l.reverse ++ (a :: acc) := by
  induction l with
  | nil => intro a acc _; rfl
  | cons x xs ih =>
    intro a acc hch
    rcases List.chain'_cons.mp hch with ⟨hax, hrest⟩
    rw [List.foldl_cons]
    have hins : insRev cmp x (a :: acc) = x :: a :: acc := by
      rw [insRev, if_neg (not_lt.mpr hax)]
    rw [hins, ih x (a :: acc) hrest]
    simp

/-- A list whose adjacent pairs are weakly ordered for the comparator is a
fixpoint of the sort. -/
theorem jsSort_fix {α : Type} (cmp : α → α → Int) (l : List α)
    (h : l.Chain' (fun a b => 0 ≤ cmp b a)) : jsSort cmp l = l := by
  cases l with
  | nil => rfl
  | cons a ls =>
    rw [jsSort, List.foldl_cons]
    have h1 : insRev cmp a [] = [a] := rfl
    rw [h1, foldl_insRev_of_chain cmp ls a [] h]
    simp

/-- Under comparator asymmetry, the sorted output is adjacent-ordered. -/
theorem jsSort_chain_ge {α : Type} (cmp : α → α → Int) (l : List α)
    (hasym : ∀ a b, cmp a b < 0 → 0 ≤ cmp b a) :
    (jsSort cmp l).Chain' (fun a b => 0 ≤ cmp b a) := by
  refine (jsSort_chain' cmp l).imp ?_
  intro a b hab
  rcases hab with h | h
  · exact h
  · exact hasym a b h

theorem compareChars_antisymm (as : List Char) : ∀ bs,
    localeCompare.compareChars as bs = -(localeCompare.compareChars bs as) := by
  induction as with
  | nil => intro bs; cases bs <;> simp [localeCompare.compareChars]
  | cons a as ih =>
    intro bs
    cases bs with
    | nil => simp [localeCompare.compareChars]
    | cons b bs =>
      by_cases h1 : a < b
      · have h2 : ¬ b < a := lt_asymm h1
        simp [localeCompare.compareChars, h1, h2]
      · by_cases h2 : b < a
        · simp [localeCompare.compareChars, h1, h2]
        · simp [localeCompare.compareChars, h1, h2, ih bs]

theorem localeCompare_antisymm (x y : String) : localeCompare x y = -(localeCompare y x) := by
  rw [localeCompare, localeCompare, compareChars_antisymm]

theorem defaultCompare_nullish_left (a b : Val) (ha : a.isNullish = true) :
    0 ≤ defaultCompare a b := by
  cases a <;> cases b <;> simp_all [defaultCompare, Val.isNullish]

theorem defaultCompare_str_str (s t : String) :
    defaultCompare (.str s) (.str t) = if s = t then 0 else localeCompare s t := by
  by_cases hst : s = t
  · subst hst; simp [defaultCompare]
  · simp [defaultCompare, Val.isNullish, hst]

theorem defaultCompare_num_num (x y : Int) :
    defaultCompare (.num x) (.num y) = if x = y then 0 else x - y := by
  by_cases hxy : x = y
  · subst hxy; simp [defaultCompare]
  · simp [defaultCompare, Val.isNullish, hxy]

theorem defaultCompare_str_num (s : String) (n : Int) :
    defaultCompare (.str s) (.num n) = localeCompare s (intToDecString n) := by
  simp [defaultCompare, Val.isNullish, valToString]

theorem defaultCompare_num_str (n : Int) (s : String) :
    defaultCompare (.num n) (.str s) = localeCompare (intToDecString n) s := by
  simp [defaultCompare, Val.isNullish, valToString]

/-- `defaultCompare` never orders both `(a, b)` and `(b, a)` strictly
negatively. -/
theorem defaultCompare_asymm (a b : Val) (h : defaultCompare a b < 0) :
    0 ≤ defaultCompare b a := by
  by_cases hna : a.isNullish = true
  · exact absurd h (not_lt.mpr (defaultCompare_nullish_left a b hna))
  · by_cases hnb : b.isNullish = true
    · exact defaultCompare_nullish_left b a hnb
    · cases a with
      | vnull => simp [Val.isNullish] at hna
      | undefinedVal => simp [Val.isNullish] at hna
      | str s =>
        cases b with
        | vnull => simp [Val.isNullish] at hnb
        | undefinedVal => simp [Val.isNullish] at hnb
        | str t =>
          rw [defaultCompare_str_str] at h
          rw [defaultCompare_str_str]
          by_cases hst : s = t
          · rw [if_pos hst] at h
            exact absurd h (lt_irrefl 0)
          · rw [if_neg hst] at h
            rw [if_neg (fun hh => hst hh.symm), localeCompare_antisymm]
            omega
        | num y =>
          rw [defaultCompare_str_num] at h
          rw [defaultCompare_num_str, localeCompare_antisymm]
          omega
      | num x =>
        cases b with
        | vnull => simp [Val.isNullish] at hnb
        | undefinedVal => simp [Val.isNullish] at hnb
        | str t =>
          rw [defaultCompare_num_str] at h
          rw [defaultCompare_str_num, localeCompare_antisymm]
          omega
        | num y =>
          rw [defaultCompare_num_num] at h
          rw [defaultCompare_num_num]
          by_cases hxy : x = y
          · rw [if_pos hxy] at h
            exact absurd h (lt_irrefl 0)
          · rw [if_neg hxy] at h
            rw [if_neg (fun hh => hxy hh.symm)]
            omega

theorem createComparator_asc_asymm (a b : Val)
    (h : createComparator .asc defaultCompare a b < 0) :
    0 ≤ createComparator .asc defaultCompare b a :=
  defaultCompare_asymm a b h

theorem applySort_active_eq_sm {T : Type} (data : List T) (c : String) (hc : c ≠ "")
    (d : SortDirection) (gv : T → String → Val) (cmpFn : Option (Val → Val → Int))
    (sm : Option Bool) (hsm : ¬ sm = some true) :
    applySort data ⟨some c, some d⟩ gv cmpFn sm =
      jsSort (fun a b =>
        createComparator d (cmpFn.getD defaultCompare) (gv a c) (gv b c)) data := by
  rw [applySort, if_neg hsm, if_neg (by simp [isSortActive, jsFalsyStrOpt, hc])]

/-! C5 -/

/-- C5 (amended): the composed pipeline `getPaginatedData ∘ applySort ∘
applyFilters` with one fixed state is idempotent PROVIDED the pagination slice
starts at zero (`pageIndex = 0`, `pageSize ≥ 0`) and the active direction's
comparator is asymmetric (never orders both `(a,b)` and `(b,a)` strictly; the
default comparator satisfies this ascending, and descending as long as null
and undefined values do not both occur). Reapplied to its own output the
pipeline then yields that output unchanged. -/
theorem pipeline_idem (data : List Rec) (fs : FilterState) (st : SortState)
    (ps : PaginationState) (gv : Rec → String → Val) (smF smS smP : Option Bool)
    (h0 : ps.pageIndex = 0) (hps : 0 ≤ ps.pageSize)
    (hasym : ∀ d, st.direction = some d → ∀ a b : Val,
      createComparator d defaultCompare a b < 0 →
        0 ≤ createComparator d defaultCompare b a) :
    pipelineFSP fs st ps gv smF smS smP (pipelineFSP fs st ps gv smF smS smP data) =
      pipelineFSP fs st ps gv smF smS smP data := by
  set y := pipelineFSP fs st ps gv smF smS smP data with hy
  have hmemy : ∀ x ∈ y, x ∈ applyFilters data fs gv defaultMatch smF := by
    intro x hx
    rw [hy, pipelineFSP] at hx
    rcases getPaginatedData_prefix
        (applySort (applyFilters data fs gv defaultMatch smF) st gv none smS) ps smP h0 hps
      with ⟨k, hk⟩
    rw [hk] at hx
    exact mem_applySort _ _ _ _ _ x (List.take_subset _ _ hx)
  have hFy : applyFilters y fs gv defaultMatch smF = y := by
    by_cases h1 : smF = some true
    · rw [applyFilters, if_pos h1]
    · rw [applyFilters, if_neg h1]
      by_cases h2 : isFilterActive fs = false
      · rw [if_pos h2]
      · rw [if_neg h2]
        refine List.filter_eq_self.mpr ?_
        intro x hx
        have hxF := hmemy x hx
        rw [applyFilters, if_neg h1, if_neg h2] at hxF
        exact List.of_mem_filter hxF
  have hSy : applySort y st gv none smS = y := by
    by_cases h1 : smS = some true
    · rw [applySort, if_pos h1]
    · by_cases h2 : (isSortActive st = false || jsFalsyStrOpt st.columnId) = true
      · rw [applySort, if_neg h1, if_pos h2]
      · simp only [Bool.or_eq_true, decide_eq_true_eq, not_or, Bool.not_eq_true] at h2
        have hact : isSortActive st = true := by
          rcases Bool.eq_false_or_eq_true (isSortActive st) with h | h
          · exact h
          · exact absurd h h2.1
        have hboth := hact
        rw [isSortActive, Bool.and_eq_true] at hboth
        rcases Option.isSome_iff_exists.mp hboth.1 with ⟨c0, hc0⟩
        rcases Option.isSome_iff_exists.mp hboth.2 with ⟨d0, hd0⟩
        have hc : c0 ≠ "" := by
          have := h2.2
          rw [hc0, jsFalsyStrOpt] at this
          simpa using this
        have hst : st = ⟨some c0, some d0⟩ := by rw [← hc0, ← hd0]
        subst hst
        have hasym0 := hasym d0 rfl
        have hchainW := jsSort_chain_ge
          (fun a b : Rec => createComparator d0 defaultCompare (gv a c0) (gv b c0))
          (applyFilters data fs gv defaultMatch smF)
          (fun a b hh => hasym0 _ _ hh)
        have hw : applySort (applyFilters data fs gv defaultMatch smF)
            ⟨some c0, some d0⟩ gv none smS =
            jsSort (fun a b : Rec =>
              createComparator d0 defaultCompare (gv a c0) (gv b c0))
              (applyFilters data fs gv defaultMatch smF) := by
          rw [applySort_active_eq_sm _ c0 hc d0 gv none smS h1]
          simp only [Option.getD_none]
        rcases getPaginatedData_prefix
            (jsSort (fun a b : Rec =>
              createComparator d0 defaultCompare (gv a c0) (gv b c0))
              (applyFilters data fs gv defaultMatch smF)) ps smP h0 hps with ⟨k, hk⟩
        have hyw : y = (jsSort (fun a b : Rec =>
            createComparator d0 defaultCompare (gv a c0) (gv b c0))
            (applyFilters data fs gv defaultMatch smF)).take k := by
          rw [hy, pipelineFSP, hw, hk]
        have hchainY : y.Chain' (fun a b : Rec =>
            0 ≤ createComparator d0 defaultCompare (gv b c0) (gv a c0)) := by
          rw [hyw]
          exact hchainW.take k
        rw [applySort_active_eq_sm y c0 hc d0 gv none smS h1]
        simp only [Option.getD_none]
        exact jsSort_fix _ y hchainY
  have hGy : getPaginatedData y ps smP = y := by
    rw [hy, pipelineFSP]
    exact getPaginatedData_idem _ ps smP h0 hps
  rw [pipelineFSP, hFy, hSy, hGy]

/-- C5 counterexample: two records, no filter, no sort, `pageIndex = 1`,
`pageSize = 1`: the pipeline yields the one-record second page, but reapplying
the pipeline to that output slices `[1, 2)` out of a one-record list and
returns `[]` — the composition shrinks its own output. -/
theorem pipeline_not_idem :
    pipelineFSP createInitialFilterState createInitialSortState ⟨1, 1, none, none⟩
        lookupAccessor none none none [recNum5, recNull] = [recNull] ∧
      pipelineFSP createInitialFilterState createInitialSortState ⟨1, 1, none, none⟩
        lookupAccessor none none none
        (pipelineFSP createInitialFilterState createInitialSortState ⟨1, 1, none, none⟩
          lookupAccessor none none none [recNum5, recNull]) = [] := by decide

/-- Witness for `pipeline_idem`: ascending sort on `v`, first page of size 1. -/
theorem pipeline_idem_witness :
    pipelineFSP createInitialFilterState ⟨some "v", some .asc⟩ ⟨0, 1, none, none⟩
        lookupAccessor none none none
        (pipelineFSP createInitialFilterState ⟨some "v", some .asc⟩ ⟨0, 1, none, none⟩
          lookupAccessor none none none [recNull, recNum5]) =
      pipelineFSP createInitialFilterState ⟨some "v", some .asc⟩ ⟨0, 1, none, none⟩
        lookupAccessor none none none [recNull, recNum5] :=
  pipeline_idem [recNull, recNum5] createInitialFilterState ⟨some "v", some .asc⟩
    ⟨0, 1, none, none⟩ lookupAccessor none none none rfl (by decide)
    (fun d hd a b hh => by
      injection hd with hd2
      subst hd2
      exact createComparator_asc_asymm a b hh)

/-! C3 machinery, part 1: `URLSearchParams` frame lemmas. -/

theorem getParam_cons (e : String × String) (rest : UrlParams) (k : String) :
    getParam (e :: rest) k = if (e.1 == k) = true then some e.2 else getParam rest k := by
  rw [getParam, List.find?_cons]
  by_cases h : (e.1 == k) = true
  · rw [if_pos h]
    simp only [h]
    rfl
  · have h2 : (e.1 == k) = false := by simpa using h
    rw [if_neg h]
    simp only [h2]
    rfl

theorem getParam_eq_none (l : UrlParams) (k : String) (h : ∀ e ∈ l, e.1 ≠ k) :
    getParam l k = none := by
  rw [getParam, List.find?_eq_none.mpr]
  · rfl
  · intro e he
    simpa using h e he

theorem getParam_delete_self (l : UrlParams) (k : String) :
    getParam (deleteParam l k) k = none := by
  refine getParam_eq_none _ _ ?_
  intro e he
  have := List.of_mem_filter he
  simpa using this

theorem deleteParam_cons (e : String × String) (rest : UrlParams) (k : String) :
    deleteParam (e :: rest) k =
      if (e.1 != k) = true then e :: deleteParam rest k else deleteParam rest k := by
  rw [deleteParam, List.filter_cons]
  by_cases h : (e.1 != k) = true
  · rw [if_pos h, if_pos h, deleteParam]
  · rw [if_neg h, if_neg h, deleteParam]

theorem getParam_delete_other (l : UrlParams) (k k' : String) (h : k' ≠ k) :
    getParam (deleteParam l k) k' = getParam l k' := by
  induction l with
  | nil => rfl
  | cons e rest ih =>
    rw [deleteParam_cons, getParam_cons]
    by_cases he : e.1 = k
    · rw [if_neg (by simp [he]), ih,
        if_neg (by simpa using fun hh : e.1 = k' => h (hh ▸ he))]
    · rw [if_pos (by simp [he]), getParam_cons]
      by_cases he' : (e.1 == k') = true
      · rw [if_pos he', if_pos he']
      · rw [if_neg he', if_neg he', ih]

theorem getParam_set_self (l : UrlParams) (k v : String) :
    getParam (setParam l k v) k = some v := by
  induction l with
  | nil => simp [setParam, getParam_cons]
  | cons e rest ih =>
    rw [setParam]
    by_cases he : (e.1 == k) = true
    · rw [if_pos he, getParam_cons, if_pos (by simp)]
    · rw [if_neg he, getParam_cons, if_neg he]
      exact ih

theorem getParam_set_other (l : UrlParams) (k v k' : String) (h : k' ≠ k) :
    getParam (setParam l k v) k' = getParam l k' := by
  induction l with
  | nil =>
    rw [setParam, getParam_cons,
      if_neg (by simpa using fun hh : k = k' => h hh.symm)]
  | cons e rest ih =>
    rw [setParam]
    by_cases he : (e.1 == k) = true
    · have he2 : e.1 = k := by simpa using he
      rw [if_pos he, getParam_cons,
        if_neg (by simpa using fun hh : k = k' => h hh.symm),
        getParam_delete_other rest k k' h, getParam_cons,
        if_neg (by simpa using fun hh : e.1 = k' => h (hh ▸ he2))]
    · rw [if_neg he, getParam_cons, getParam_cons]
      by_cases he' : (e.1 == k') = true
      · rw [if_pos he', if_pos he']
      · rw [if_neg he', if_neg he', ih]

theorem getParam_append_right_irrelevant (l1 l2 : UrlParams) (k : String)
    (h : ∀ e ∈ l2, e.1 ≠ k) : getParam (l1 ++ l2) k = getParam l1 k := by
  induction l1 with
  | nil => simpa using getParam_eq_none l2 k h
  | cons e rest ih =>
    rw [List.cons_append, getParam_cons, getParam_cons]
    by_cases he : (e.1 == k) = true
    · rw [if_pos he, if_pos he]
    · rw [if_neg he, if_neg he, ih]

theorem setParam_append (l : UrlParams) (k v : String) (h : ∀ e ∈ l, e.1 ≠ k) :
    setParam l k v = l ++ [(k, v)] := by
  induction l with
  | nil => rfl
  | cons e rest ih =>
    rw [setParam, if_neg (by simpa using h e (by simp))]
    rw [ih (fun e' he' => h e' (by simp [he']))]
    rfl

theorem upsert_append (l : List (String × String)) (k v : String)
    (h : ∀ e ∈ l, e.1 ≠ k) : upsert l k v = l ++ [(k, v)] := by
  induction l with
  | nil => rfl
  | cons e rest ih =>
    rw [upsert, if_neg (by simpa using h e (by simp))]
    rw [ih (fun e' he' => h e' (by simp [he']))]
    rfl

theorem leadMatch_append (p rest : List Char) : leadMatch (p ++ rest) p = true := by
  induction p with
  | nil => cases rest <;> rfl
  | cons a as ih => simpa [leadMatch] using ih

theorem jsStartsWith_concat (p c : String) : jsStartsWith (jsConcat p c) p = true := by
  rw [jsStartsWith, jsConcat]
  exact leadMatch_append p.data c.data

theorem ne_of_startsWith (a b p : String) (ha : jsStartsWith a p = false)
    (hb : jsStartsWith b p = true) : a ≠ b := by
  intro h
  rw [h, hb] at ha
  exact Bool.noConfusion ha

theorem jsDropLen_concat (p c : String) : jsDropLen (jsConcat p c) p = c := by
  rw [jsDropLen, jsConcat]
  refine String.ext ?_
  show (p.data ++ c.data).drop p.data.length = c.data
  rw [List.drop_left]

theorem jsConcat_right_inj (p a b : String) (h : jsConcat p a = jsConcat p b) : a = b := by
  rw [jsConcat, jsConcat] at h
  have h2 := congrArg String.data h
  have h3 : p.data ++ a.data = p.data ++ b.data := h2
  exact String.ext (List.append_cancel_left h3)

/-! C3 machinery, part 2: decimal print/parse round trip, and the
column-filter removal loop on prefix-free lists. -/

theorem digitChar_isDigit (d : Nat) (hd : d < 10) : (digitChar d).isDigit = true := by
  interval_cases d <;> decide

theorem digitChar_toNat (d : Nat) (hd : d < 10) : (digitChar d).toNat = 48 + d := by
  interval_cases d <;> decide

theorem natDigitsRevAux_digits (fuel : Nat) : ∀ n, n < fuel →
    ∀ c ∈ natDigitsRevAux fuel n, c.isDigit = true := by
  induction fuel with
  | zero => intro n hn; omega
  | succ fuel ih =>
    intro n _ c hc
    rw [natDigitsRevAux] at hc
    by_cases h10 : n < 10
    · rw [if_pos h10] at hc
      simp only [List.mem_singleton] at hc
      subst hc
      exact digitChar_isDigit n h10
    · rw [if_neg h10] at hc
      rcases List.mem_cons.mp hc with rfl | hmem
      · exact digitChar_isDigit _ (Nat.mod_lt _ (by norm_num))
      · exact ih (n / 10) (by omega) c hmem

theorem natDigitsRevAux_ne_nil (fuel n : Nat) (h : n < fuel) :
    natDigitsRevAux fuel n ≠ [] := by
  cases fuel with
  | zero => omega
  | succ fuel =>
    rw [natDigitsRevAux]
    by_cases h10 : n < 10
    · rw [if_pos h10]
      simp
    · rw [if_neg h10]
      simp

theorem digitsVal_append (ds : List Char) (c : Char) :
    digitsVal (ds ++ [c]) = digitsVal ds * 10 + (c.toNat - 48) := by
  rw [digitsVal, digitsVal, List.foldl_append]
  rfl

theorem natDigitsRevAux_val (fuel : Nat) : ∀ n, n < fuel →
    digitsVal (natDigitsRevAux fuel n).reverse = n := by
  induction fuel with
  | zero => intro n hn; omega
  | succ fuel ih =>
    intro n hn
    rw [natDigitsRevAux]
    by_cases h10 : n < 10
    · rw [if_pos h10]
      show digitsVal [digitChar n] = n
      rw [show digitsVal [digitChar n] = 0 * 10 + ((digitChar n).toNat - 48) from rfl]
      rw [digitChar_toNat n h10]
      omega
    · rw [if_neg h10, List.reverse_cons, digitsVal_append, ih (n / 10) (by omega)]
      rw [digitChar_toNat _ (Nat.mod_lt _ (by norm_num))]
      omega

theorem isDigit_not_whitespace (c : Char) (h : c.isDigit = true) :
    c.isWhitespace = false := by
  rcases Bool.eq_false_or_eq_true c.isWhitespace with hw | hw
  swap
  · exact hw
  · exfalso
    have hsp : c = ' ' ∨ c = '\t' ∨ c = '\r' ∨ c = '\n' := by
      rw [Char.isWhitespace] at hw
      simp only [Bool.or_eq_true, decide_eq_true_eq] at hw
      tauto
    rcases hsp with hh | hh | hh | hh <;> rw [hh] at h <;> exact absurd h (by decide)

theorem isDigit_ne_signs (c : Char) (h : c.isDigit = true) : c ≠ '-' ∧ c ≠ '+' := by
  constructor <;> intro hh <;> subst hh <;> revert h <;> decide

theorem takeWhile_all (p : Char → Bool) (l : List Char) (h : ∀ c ∈ l, p c = true) :
    l.takeWhile p = l := by
  induction l with
  | nil => rfl
  | cons c cs ih =>
    rw [List.takeWhile_cons, h c (by simp), if_pos rfl]
    rw [ih (fun c' hc' => h c' (by simp [hc']))]

theorem jsParseInt_all_digits (l : List Char) (hne : l ≠ [])
    (hdig : ∀ c ∈ l, c.isDigit = true) :
    jsParseInt (String.mk l) = some ((digitsVal l : Nat) : Int) := by
  obtain ⟨c, rest, rfl⟩ := List.exists_cons_of_ne_nil hne
  rw [jsParseInt]
  have hd : (String.mk (c :: rest)).data.dropWhile Char.isWhitespace = c :: rest := by
    show (c :: rest).dropWhile Char.isWhitespace = c :: rest
    rw [List.dropWhile_cons, isDigit_not_whitespace c (hdig c (by simp))]
    rw [if_neg (by simp)]
  rw [hd]
  show (if c = '-' then
      (match parseDigits rest with
        | some m => some (-(m : Int))
        | none => none)
    else if c = '+' then
      (match parseDigits rest with
        | some m => some ((m : Int))
        | none => none)
    else
      (match parseDigits (c :: rest) with
        | some m => some ((m : Int))
        | none => none)) = some ((digitsVal (c :: rest) : Nat) : Int)
  rw [if_neg (isDigit_ne_signs c (hdig c (by simp))).1,
    if_neg (isDigit_ne_signs c (hdig c (by simp))).2]
  rw [parseDigits]
  rw [takeWhile_all _ _ hdig]
  rw [if_neg (by simp)]

theorem jsParseInt_natToDecString (n : Nat) :
    jsParseInt (natToDecString n) = some (n : Int) := by
  have h := jsParseInt_all_digits (natDigitsRevAux (n + 1) n).reverse
    (by simpa using natDigitsRevAux_ne_nil (n + 1) n (by omega))
    (fun c hc => natDigitsRevAux_digits (n + 1) n (by omega) c (List.mem_reverse.mp hc))
  rw [natDigitsRevAux_val (n + 1) n (by omega)] at h
  exact h

theorem natToDecString_ne_empty (n : Nat) : natToDecString n ≠ "" := by
  intro h
  have h2 := congrArg String.data h
  have h3 : (natDigitsRevAux (n + 1) n).reverse = [] := h2
  exact natDigitsRevAux_ne_nil (n + 1) n (by omega) (by simpa using h3)

theorem intToDecString_nonneg (v : Int) (hv : 0 ≤ v) :
    intToDecString v = natToDecString v.toNat := by
  rw [intToDecString, if_neg (not_lt.mpr hv)]

theorem jsParseInt_intToDecString (v : Int) (hv : 0 ≤ v) :
    jsParseInt (intToDecString v) = some v := by
  rw [intToDecString_nonneg v hv, jsParseInt_natToDecString]
  rw [Int.toNat_of_nonneg hv]

theorem intToDecString_ne_empty (v : Int) (hv : 0 ≤ v) : intToDecString v ≠ "" := by
  rw [intToDecString_nonneg v hv]
  exact natToDecString_ne_empty _

theorem forEachDeleteAux_nopfx (p : String) (fuel : Nat) : ∀ (l : UrlParams) (i : Nat),
    (∀ e ∈ l, jsStartsWith e.1 p = false) → forEachDeleteAux p fuel l i = l := by
  induction fuel with
  | zero => intro l i _; rfl
  | succ fuel ih =>
    intro l i hl
    rw [forEachDeleteAux]
    by_cases h : i < l.length
    · rw [dif_pos h]
      show (if jsStartsWith (l.get ⟨i, h⟩).1 p = true
          then forEachDeleteAux p fuel (deleteParam l (l.get ⟨i, h⟩).1) (i + 1)
          else forEachDeleteAux p fuel l (i + 1)) = l
      rw [hl (l.get ⟨i, h⟩) (l.get_mem i h)]
      rw [if_neg (by simp)]
      exact ih l (i + 1) hl
    · rw [dif_neg h]

theorem removeColumnFilterParams_nopfx (p : String) (l : UrlParams)
    (hl : ∀ e ∈ l, jsStartsWith e.1 p = false) :
    removeColumnFilterParams p l = l :=
  forEachDeleteAux_nopfx p l.length l 0 hl

/-! C3 machinery, part 3: serializer and parser structure under the default
configuration. -/

theorem dpn_page : DEFAULT_PARAM_NAMES.page = "page" := rfl

theorem dpn_pageSize : DEFAULT_PARAM_NAMES.pageSize = "pageSize" := rfl

theorem dpn_sortColumn : DEFAULT_PARAM_NAMES.sortColumn = "sort" := rfl

theorem dpn_sortDir : DEFAULT_PARAM_NAMES.sortDir = "sortDir" := rfl

theorem dpn_globalFilter : DEFAULT_PARAM_NAMES.globalFilter = "q" := rfl

theorem dpn_cfp : DEFAULT_PARAM_NAMES.columnFilterPrefix = "filter_" := rfl

theorem serializeStateToUrl_default (state : TableState) (params : UrlParams) :
    serializeStateToUrl state params defaultUrlSyncConfig =
      serializeFilteringToUrl state.filtering
        (serializeSortingToUrl state.sorting
          (serializePaginationToUrl state.pagination params DEFAULT_PARAM_NAMES)
          DEFAULT_PARAM_NAMES) DEFAULT_PARAM_NAMES := rfl

theorem getParam_condStep_self (l : UrlParams) (c : Prop) [Decidable c] (key v : String) :
    getParam (if c then setParam l key v else deleteParam l key) key =
      if c then some v else none := by
  by_cases hc : c
  · rw [if_pos hc, if_pos hc, getParam_set_self]
  · rw [if_neg hc, if_neg hc, getParam_delete_self]

theorem getParam_condStep_other (l : UrlParams) (c : Prop) [Decidable c] (key v k : String)
    (h : k ≠ key) :
    getParam (if c then setParam l key v else deleteParam l key) k = getParam l k := by
  by_cases hc : c
  · rw [if_pos hc, getParam_set_other _ _ _ _ h]
  · rw [if_neg hc, getParam_delete_other _ _ _ h]

theorem serializePagination_eq (pag : PaginationState) (params : UrlParams) :
    serializePaginationToUrl pag params DEFAULT_PARAM_NAMES =
      (if pag.pageSize ≠ 10 then
        setParam (if 0 < pag.pageIndex then
            setParam params "page" (intToDecString pag.pageIndex)
          else deleteParam params "page") "pageSize" (intToDecString pag.pageSize)
      else deleteParam (if 0 < pag.pageIndex then
            setParam params "page" (intToDecString pag.pageIndex)
          else deleteParam params "page") "pageSize") := rfl

theorem getParam_serializePagination_page (pag : PaginationState) (params : UrlParams) :
    getParam (serializePaginationToUrl pag params DEFAULT_PARAM_NAMES) "page" =
      if 0 < pag.pageIndex then some (intToDecString pag.pageIndex) else none := by
  rw [serializePagination_eq]
  rw [getParam_condStep_other _ _ _ _ _ (by decide)]
  rw [getParam_condStep_self]

theorem getParam_serializePagination_pageSize (pag : PaginationState) (params : UrlParams) :
    getParam (serializePaginationToUrl pag params DEFAULT_PARAM_NAMES) "pageSize" =
      if pag.pageSize ≠ 10 then some (intToDecString pag.pageSize) else none := by
  rw [serializePagination_eq, getParam_condStep_self]

theorem getParam_serializePagination_other (pag : PaginationState) (params : UrlParams)
    (k : String) (h1 : k ≠ "page") (h2 : k ≠ "pageSize") :
    getParam (serializePaginationToUrl pag params DEFAULT_PARAM_NAMES) k =
      getParam params k := by
  rw [serializePagination_eq]
  rw [getParam_condStep_other _ _ _ _ _ h2, getParam_condStep_other _ _ _ _ _ h1]

theorem serializeSorting_active (c : String) (d : SortDirection) (params : UrlParams)
    (hc : c ≠ "") :
    serializeSortingToUrl ⟨some c, some d⟩ params DEFAULT_PARAM_NAMES =
      setParam (setParam params "sort" c) "sortDir" (dirToString d) := by
  rw [serializeSortingToUrl]
  rw [if_neg (by simp [jsFalsyStrOpt, hc])]
  rfl

theorem getParam_serializeSorting_other (sorting : SortState) (params : UrlParams)
    (k : String) (h1 : k ≠ "sort") (h2 : k ≠ "sortDir") :
    getParam (serializeSortingToUrl sorting params DEFAULT_PARAM_NAMES) k =
      getParam params k := by
  rw [serializeSortingToUrl]
  by_cases hf : jsFalsyStrOpt sorting.columnId = true
  · rw [if_pos hf, dpn_sortColumn, dpn_sortDir,
      getParam_delete_other _ _ _ h2, getParam_delete_other _ _ _ h1]
  · rw [if_neg hf]
    cases hcol : sorting.columnId with
    | none =>
      rw [dpn_sortColumn, dpn_sortDir,
        getParam_delete_other _ _ _ h2, getParam_delete_other _ _ _ h1]
    | some c =>
      cases hdir : sorting.direction with
      | none =>
        show getParam (deleteParam (setParam params DEFAULT_PARAM_NAMES.sortColumn c)
          DEFAULT_PARAM_NAMES.sortDir) k = getParam params k
        rw [dpn_sortColumn, dpn_sortDir, getParam_delete_other _ _ _ h2,
          getParam_set_other _ _ _ _ h1]
      | some d =>
        show getParam (setParam (setParam params DEFAULT_PARAM_NAMES.sortColumn c)
          DEFAULT_PARAM_NAMES.sortDir (dirToString d)) k = getParam params k
        rw [dpn_sortColumn, dpn_sortDir, getParam_set_other _ _ _ _ h2,
          getParam_set_other _ _ _ _ h1]

theorem nopfx_deleteParam (l : UrlParams) (k p : String)
    (hl : ∀ e ∈ l, jsStartsWith e.1 p = false) :
    ∀ e ∈ deleteParam l k, jsStartsWith e.1 p = false :=
  fun e he => hl e (List.mem_of_mem_filter he)

theorem nopfx_setParam (l : UrlParams) (k v p : String) (hk : jsStartsWith k p = false)
    (hl : ∀ e ∈ l, jsStartsWith e.1 p = false) :
    ∀ e ∈ setParam l k v, jsStartsWith e.1 p = false := by
  induction l with
  | nil =>
    intro e he
    simp only [setParam, List.mem_singleton] at he
    subst he
    exact hk
  | cons x rest ih =>
    intro e he
    rw [setParam] at he
    by_cases hx : (x.1 == k) = true
    · rw [if_pos hx] at he
      rcases List.mem_cons.mp he with rfl | hmem
      · exact hk
      · exact hl _ (List.mem_cons_of_mem x (List.mem_of_mem_filter hmem))
    · rw [if_neg hx] at he
      rcases List.mem_cons.mp he with rfl | hmem
      · exact hl e (by simp)
      · exact ih (fun e' he' => hl e' (List.mem_cons_of_mem x he')) e hmem

theorem nopfx_condStep (l : UrlParams) (c : Prop) [Decidable c] (key v p : String)
    (hk : jsStartsWith key p = false)
    (hl : ∀ e ∈ l, jsStartsWith e.1 p = false) :
    ∀ e ∈ (if c then setParam l key v else deleteParam l key),
      jsStartsWith e.1 p = false := by
  by_cases hc : c
  · rw [if_pos hc]
    exact nopfx_setParam l key v p hk hl
  · rw [if_neg hc]
    exact nopfx_deleteParam l key p hl

theorem nopfx_serializePagination (pag : PaginationState) (params : UrlParams)
    (hl : ∀ e ∈ params, jsStartsWith e.1 "filter_" = false) :
    ∀ e ∈ serializePaginationToUrl pag params DEFAULT_PARAM_NAMES,
      jsStartsWith e.1 "filter_" = false := by
  rw [serializePagination_eq]
  exact nopfx_condStep _ _ _ _ _ (by decide)
    (nopfx_condStep _ _ _ _ _ (by decide) hl)

theorem nopfx_serializeSorting (sorting : SortState) (params : UrlParams)
    (hl : ∀ e ∈ params, jsStartsWith e.1 "filter_" = false) :
    ∀ e ∈ serializeSortingToUrl sorting params DEFAULT_PARAM_NAMES,
      jsStartsWith e.1 "filter_" = false := by
  rw [serializeSortingToUrl]
  by_cases hf : jsFalsyStrOpt sorting.columnId = true
  · rw [if_pos hf]
    exact nopfx_deleteParam _ _ _ (nopfx_deleteParam _ _ _ hl)
  · rw [if_neg hf]
    cases hcol : sorting.columnId with
    | none => exact nopfx_deleteParam _ _ _ (nopfx_deleteParam _ _ _ hl)
    | some c =>
      cases hdir : sorting.direction with
      | none =>
        show ∀ e ∈ deleteParam (setParam params DEFAULT_PARAM_NAMES.sortColumn c)
          DEFAULT_PARAM_NAMES.sortDir, jsStartsWith e.1 "filter_" = false
        exact nopfx_deleteParam _ _ _ (nopfx_setParam _ _ _ _ (by decide) hl)
      | some d =>
        show ∀ e ∈ setParam (setParam params DEFAULT_PARAM_NAMES.sortColumn c)
          DEFAULT_PARAM_NAMES.sortDir (dirToString d), jsStartsWith e.1 "filter_" = false
        exact nopfx_setParam _ _ _ _ (by decide) (nopfx_setParam _ _ _ _ (by decide) hl)

theorem foldl_setParam_filter_append (p : String) (cfs : List (String × String)) :
    ∀ (l : UrlParams),
    (∀ cf ∈ cfs, ∀ e ∈ l, e.1 ≠ jsConcat p cf.1) →
    ((cfs.map Prod.fst).Nodup) →
    cfs.foldl (fun ps cf =>
        if cf.2 != "" then setParam ps (jsConcat p cf.1) cf.2 else ps) l =
      l ++ (cfs.filter (fun cf => cf.2 != "")).map (fun cf => (jsConcat p cf.1, cf.2)) := by
  induction cfs with
  | nil => intro l _ _; simp
  | cons cf rest ih =>
    intro l hfree hnodup
    rw [List.foldl_cons, List.filter_cons]
    have hnodup' : (rest.map Prod.fst).Nodup := by
      rw [List.map_cons] at hnodup
      exact (List.nodup_cons.mp hnodup).2
    have hhead : cf.1 ∉ rest.map Prod.fst := by
      rw [List.map_cons] at hnodup
      exact (List.nodup_cons.mp hnodup).1
    by_cases hv : (cf.2 != "") = true
    · rw [if_pos hv, if_pos hv]
      rw [setParam_append l _ _ (fun e he => hfree cf (by simp) e he)]
      rw [ih (l ++ [(jsConcat p cf.1, cf.2)]) ?_ hnodup']
      · rw [List.map_cons, List.append_assoc]
        rfl
      · intro cf' hcf' e he
        rcases List.mem_append.mp he with hl | hx
        · exact hfree cf' (by simp [hcf']) e hl
        · simp only [List.mem_singleton] at hx
          subst hx
          intro hcon
          have : cf.1 = cf'.1 := jsConcat_right_inj p _ _ hcon
          exact hhead (this ▸ List.mem_map_of_mem Prod.fst hcf')
    · rw [if_neg hv, if_neg hv]
      exact ih l (fun cf' hcf' e he => hfree cf' (by simp [hcf']) e he) hnodup'

theorem serializeFiltering_structure (f : FilterState) (params : UrlParams)
    (hp : ∀ e ∈ params, jsStartsWith e.1 "filter_" = false)
    (hnodup : (f.columnFilters.map Prod.fst).Nodup) :
    serializeFilteringToUrl f params DEFAULT_PARAM_NAMES =
      (if f.globalFilter ≠ "" then setParam params "q" f.globalFilter
        else deleteParam params "q") ++
        (f.columnFilters.filter (fun cf => cf.2 != "")).map
          (fun cf => (jsConcat "filter_" cf.1, cf.2)) := by
  rw [serializeFilteringToUrl, dpn_globalFilter, dpn_cfp]
  have hq : (if f.globalFilter != "" then setParam params "q" f.globalFilter
      else deleteParam params "q") =
      (if f.globalFilter ≠ "" then setParam params "q" f.globalFilter
        else deleteParam params "q") := by
    by_cases hg : f.globalFilter = ""
    · rw [if_neg (by simp [hg]), if_neg (by simp [hg])]
    · rw [if_pos (by simpa using hg), if_pos hg]
  rw [hq]
  have hq2 : ∀ e ∈ (if f.globalFilter ≠ "" then setParam params "q" f.globalFilter
      else deleteParam params "q"), jsStartsWith e.1 "filter_" = false :=
    nopfx_condStep params _ "q" f.globalFilter "filter_" (by decide) hp
  rw [removeColumnFilterParams_nopfx _ _ hq2]
  exact foldl_setParam_filter_append "filter_" f.columnFilters _
    (fun cf _ e he => ne_of_startsWith _ _ _ (hq2 e he) (jsStartsWith_concat _ cf.1))
    hnodup

theorem collect_nopfx (p : String) (l : List (String × String)) :
    ∀ acc, (∀ e ∈ l, jsStartsWith e.1 p = false) →
    l.foldl (collectColumnFilters p) acc = acc := by
  induction l with
  | nil => intro acc _; rfl
  | cons e rest ih =>
    intro acc hl
    rw [List.foldl_cons, collectColumnFilters, hl e (by simp)]
    rw [if_neg (by simp)]
    exact ih acc (fun e' he' => hl e' (by simp [he']))

theorem collect_entries (p : String) (cfs : List (String × String)) :
    ∀ acc, (∀ cf ∈ cfs, cf.1 ≠ "" ∧ cf.2 ≠ "") →
    (∀ cf ∈ cfs, ∀ e ∈ acc, e.1 ≠ cf.1) →
    ((cfs.map Prod.fst).Nodup) →
    (cfs.map (fun cf => (jsConcat p cf.1, cf.2))).foldl (collectColumnFilters p) acc =
      acc ++ cfs := by
  induction cfs with
  | nil => intro acc _ _ _; simp
  | cons cf rest ih =>
    intro acc hne hfresh hnodup
    have hnodup' : (rest.map Prod.fst).Nodup := by
      rw [List.map_cons] at hnodup
      exact (List.nodup_cons.mp hnodup).2
    have hhead : cf.1 ∉ rest.map Prod.fst := by
      rw [List.map_cons] at hnodup
      exact (List.nodup_cons.mp hnodup).1
    rw [List.map_cons, List.foldl_cons, collectColumnFilters,
      jsStartsWith_concat p cf.1, if_pos rfl]
    have hdrop : jsDropLen (jsConcat p cf.1) p = cf.1 := jsDropLen_concat p cf.1
    rw [hdrop]
    rw [if_pos (by simp [(hne cf (by simp)).1, (hne cf (by simp)).2])]
    rw [upsert_append acc cf.1 cf.2 (fun e he => hfresh cf (by simp) e he)]
    rw [ih (acc ++ [(cf.1, cf.2)]) ?_ ?_ hnodup']
    · rw [List.append_assoc]
      rfl
    · exact fun cf' hcf' => hne cf' (by simp [hcf'])
    · intro cf' hcf' e he
      rcases List.mem_append.mp he with hl | hx
      · exact hfresh cf' (by simp [hcf']) e hl
      · simp only [List.mem_singleton] at hx
        subst hx
        intro hcon
        exact hhead (hcon ▸ List.mem_map_of_mem Prod.fst hcf')

theorem parseFilteringFromUrl_structure (l1 : UrlParams) (cfs : List (String × String))
    (hl1 : ∀ e ∈ l1, jsStartsWith e.1 "filter_" = false)
    (hne : ∀ cf ∈ cfs, cf.1 ≠ "" ∧ cf.2 ≠ "")
    (hnodup : (cfs.map Prod.fst).Nodup) :
    parseFilteringFromUrl (l1 ++ cfs.map (fun cf => (jsConcat "filter_" cf.1, cf.2)))
        DEFAULT_PARAM_NAMES =
      { globalFilter :=
          (getParam (l1 ++ cfs.map (fun cf => (jsConcat "filter_" cf.1, cf.2))) "q").getD "",
        columnFilters := cfs } := by
  rw [parseFilteringFromUrl, dpn_globalFilter, dpn_cfp]
  congr 1
  rw [List.foldl_append]
  rw [collect_nopfx "filter_" l1 [] hl1]
  rw [collect_entries "filter_" cfs [] hne (fun cf _ e he => absurd he (List.not_mem_nil e))
    hnodup]
  rfl

theorem parsePagination_pageIndex_some (ps : UrlParams) (names : ResolvedParamNames)
    (v : Int) (s : String) (hs : getParam ps names.page = some s) (hse : s ≠ "")
    (hparse : jsParseInt s = some v) (hv : 0 ≤ v) :
    (parsePaginationFromUrl ps names).pageIndex = some v := by
  simp only [parsePaginationFromUrl, hs]
  rw [if_pos (by simpa using hse), hparse]
  show (if 0 ≤ v then some v else none) = some v
  rw [if_pos hv]

theorem parsePagination_pageSize_some (ps : UrlParams) (names : ResolvedParamNames)
    (v : Int) (s : String) (hs : getParam ps names.pageSize = some s) (hse : s ≠ "")
    (hparse : jsParseInt s = some v) (hv : 0 < v) :
    (parsePaginationFromUrl ps names).pageSize = some v := by
  simp only [parsePaginationFromUrl, hs]
  rw [if_pos (by simpa using hse), hparse]
  show (if 0 < v then some v else none) = some v
  rw [if_pos hv]

theorem parseState_sorting_default (ps : UrlParams) :
    (parseStateFromUrl ps defaultUrlSyncConfig).sorting =
      parseSortingFromUrl ps DEFAULT_PARAM_NAMES := rfl

theorem parseState_filtering_default (ps : UrlParams) :
    (parseStateFromUrl ps defaultUrlSyncConfig).filtering =
      (if (parseFilteringFromUrl ps DEFAULT_PARAM_NAMES).globalFilter != "" ||
          (parseFilteringFromUrl ps DEFAULT_PARAM_NAMES).columnFilters.length != 0 then
        some (parseFilteringFromUrl ps DEFAULT_PARAM_NAMES)
      else none) := rfl

theorem parseState_pagination_default (ps : UrlParams) :
    (parseStateFromUrl ps defaultUrlSyncConfig).pagination =
      (if (parsePaginationFromUrl ps DEFAULT_PARAM_NAMES).pageIndex == none &&
          (parsePaginationFromUrl ps DEFAULT_PARAM_NAMES).pageSize == none then none
      else some (parsePaginationFromUrl ps DEFAULT_PARAM_NAMES)) := rfl

theorem partialPageIndex_some_default (ps : UrlParams) (v : Int)
    (h : (parsePaginationFromUrl ps DEFAULT_PARAM_NAMES).pageIndex = some v) :
    partialPageIndex (parseStateFromUrl ps defaultUrlSyncConfig) = some v := by
  rw [partialPageIndex, parseState_pagination_default, h]
  rw [if_neg (by simp)]
  exact h

theorem partialPageSize_some_default (ps : UrlParams) (v : Int)
    (h : (parsePaginationFromUrl ps DEFAULT_PARAM_NAMES).pageSize = some v) :
    partialPageSize (parseStateFromUrl ps defaultUrlSyncConfig) = some v := by
  rw [partialPageSize, parseState_pagination_default, h]
  rw [if_neg (by simp)]
  exact h

theorem parseSorting_some (ps : UrlParams) (names : ResolvedParamNames) (c : String)
    (hc : getParam ps names.sortColumn = some c) (hcne : c ≠ "") :
    parseSortingFromUrl ps names =
      some ⟨c, parseDirection (getParam ps names.sortDir)⟩ := by
  rw [parseSortingFromUrl, hc]
  show (if (c == "") = true then none
    else some (⟨c, parseDirection (getParam ps names.sortDir)⟩ : ParsedSortState)) =
    some ⟨c, parseDirection (getParam ps names.sortDir)⟩
  rw [if_neg (by simpa using hcne)]

theorem parseDirection_dirToString (d : SortDirection) :
    parseDirection (some (dirToString d)) = some d := by
  cases d <;> decide

/-! C3 -/

/-- C3 (amended): under the default configuration, for a table state whose
page size is positive, whose active sort column (if any) is non-empty, and
whose column-filter keys are non-empty and duplicate-free, and for any
starting parameters containing no column-filter-prefixed key,
`parseStateFromUrl ∘ serializeStateToUrl` recovers every non-default field:
`pageIndex` when positive, `pageSize` when positive and ≠ 10, the active sort
column and direction, and the filtering slice (global filter plus exactly the
column filters with non-empty values) whenever it is non-default. -/
theorem urlSync_roundtrip (state : TableState) (params : UrlParams)
    (hparams : ∀ e ∈ params, jsStartsWith e.1 "filter_" = false)
    (hnodup : (state.filtering.columnFilters.map Prod.fst).Nodup)
    (hkeysne : ∀ cf ∈ state.filtering.columnFilters, cf.1 ≠ "")
    (rt : PartialTableState)
    (hrt : rt = parseStateFromUrl (serializeStateToUrl state params defaultUrlSyncConfig)
      defaultUrlSyncConfig) :
    (0 < state.pagination.pageIndex →
      partialPageIndex rt = some state.pagination.pageIndex) ∧
    (state.pagination.pageSize ≠ 10 → 0 < state.pagination.pageSize →
      partialPageSize rt = some state.pagination.pageSize) ∧
    (∀ c d, state.sorting.columnId = some c → c ≠ "" → state.sorting.direction = some d →
      rt.sorting = some ⟨c, some d⟩) ∧
    (state.filtering.globalFilter ≠ "" ∨
        state.filtering.columnFilters.filter (fun cf => cf.2 != "") ≠ [] →
      rt.filtering = some ⟨state.filtering.globalFilter,
        state.filtering.columnFilters.filter (fun cf => cf.2 != "")⟩) := by
  have hnp1 := nopfx_serializePagination state.pagination params hparams
  have hnp2 := nopfx_serializeSorting state.sorting
    (serializePaginationToUrl state.pagination params DEFAULT_PARAM_NAMES) hnp1
  have hnpQ : ∀ e ∈ (if state.filtering.globalFilter ≠ "" then
      setParam (serializeSortingToUrl state.sorting
        (serializePaginationToUrl state.pagination params DEFAULT_PARAM_NAMES)
        DEFAULT_PARAM_NAMES) "q" state.filtering.globalFilter
    else deleteParam (serializeSortingToUrl state.sorting
        (serializePaginationToUrl state.pagination params DEFAULT_PARAM_NAMES)
        DEFAULT_PARAM_NAMES) "q"), jsStartsWith e.1 "filter_" = false :=
    nopfx_condStep _ _ "q" state.filtering.globalFilter "filter_" (by decide) hnp2
  have hfin : serializeStateToUrl state params defaultUrlSyncConfig =
      (if state.filtering.globalFilter ≠ "" then
        setParam (serializeSortingToUrl state.sorting
          (serializePaginationToUrl state.pagination params DEFAULT_PARAM_NAMES)
          DEFAULT_PARAM_NAMES) "q" state.filtering.globalFilter
      else deleteParam (serializeSortingToUrl state.sorting
          (serializePaginationToUrl state.pagination params DEFAULT_PARAM_NAMES)
          DEFAULT_PARAM_NAMES) "q") ++
        (state.filtering.columnFilters.filter (fun cf => cf.2 != "")).map
          (fun cf => (jsConcat "filter_" cf.1, cf.2)) := by
    rw [serializeStateToUrl_default]
    exact serializeFiltering_structure state.filtering _ hnp2 hnodup
  have hget : ∀ k : String, jsStartsWith k "filter_" = false →
      getParam (serializeStateToUrl state params defaultUrlSyncConfig) k =
        getParam (if state.filtering.globalFilter ≠ "" then
          setParam (serializeSortingToUrl state.sorting
            (serializePaginationToUrl state.pagination params DEFAULT_PARAM_NAMES)
            DEFAULT_PARAM_NAMES) "q" state.filtering.globalFilter
        else deleteParam (serializeSortingToUrl state.sorting
            (serializePaginationToUrl state.pagination params DEFAULT_PARAM_NAMES)
            DEFAULT_PARAM_NAMES) "q") k := by
    intro k hk
    rw [hfin]
    refine getParam_append_right_irrelevant _ _ k ?_
    intro e he
    rcases List.mem_map.mp he with ⟨cf, _, rfl⟩
    exact (ne_of_startsWith _ _ _ hk (jsStartsWith_concat _ _)).symm
  have hscalar : ∀ k : String, jsStartsWith k "filter_" = false → k ≠ "q" →
      getParam (serializeStateToUrl state params defaultUrlSyncConfig) k =
        getParam (serializeSortingToUrl state.sorting
          (serializePaginationToUrl state.pagination params DEFAULT_PARAM_NAMES)
          DEFAULT_PARAM_NAMES) k := by
    intro k hk hq
    rw [hget k hk]
    exact getParam_condStep_other _ _ _ _ _ hq
  refine ⟨?_, ?_, ?_, ?_⟩
  · -- pageIndex
    intro hpi
    have hpage : getParam (serializeStateToUrl state params defaultUrlSyncConfig) "page" =
        some (intToDecString state.pagination.pageIndex) := by
      rw [hscalar "page" (by decide) (by decide)]
      rw [getParam_serializeSorting_other _ _ _ (by decide) (by decide)]
      rw [getParam_serializePagination_page]
      rw [if_pos hpi]
    rw [hrt]
    refine partialPageIndex_some_default _ _ ?_
    refine parsePagination_pageIndex_some _ _ _ (intToDecString state.pagination.pageIndex)
      (by rw [dpn_page]; exact hpage) (intToDecString_ne_empty _ (le_of_lt hpi))
      (jsParseInt_intToDecString _ (le_of_lt hpi)) (le_of_lt hpi)
  · -- pageSize
    intro hps10 hps
    have hpagesz : getParam (serializeStateToUrl state params defaultUrlSyncConfig)
        "pageSize" = some (intToDecString state.pagination.pageSize) := by
      rw [hscalar "pageSize" (by decide) (by decide)]
      rw [getParam_serializeSorting_other _ _ _ (by decide) (by decide)]
      rw [getParam_serializePagination_pageSize]
      rw [if_pos hps10]
    rw [hrt]
    refine partialPageSize_some_default _ _ ?_
    refine parsePagination_pageSize_some _ _ _ (intToDecString state.pagination.pageSize)
      (by rw [dpn_pageSize]; exact hpagesz) (intToDecString_ne_empty _ (le_of_lt hps))
      (jsParseInt_intToDecString _ (le_of_lt hps)) hps
  · -- sorting
    intro c d hc hcne hd
    have hsst : state.sorting = ⟨some c, some d⟩ := by rw [← hc, ← hd]
    have hsc : getParam (serializeStateToUrl state params defaultUrlSyncConfig) "sort" =
        some c := by
      rw [hscalar "sort" (by decide) (by decide), hsst,
        serializeSorting_active c d _ hcne,
        getParam_set_other _ _ _ _ (by decide), getParam_set_self]
    have hsd : getParam (serializeStateToUrl state params defaultUrlSyncConfig) "sortDir" =
        some (dirToString d) := by
      rw [hscalar "sortDir" (by decide) (by decide), hsst,
        serializeSorting_active c d _ hcne, getParam_set_self]
    rw [hrt, parseState_sorting_default]
    rw [parseSorting_some _ _ c (by rw [dpn_sortColumn]; exact hsc) hcne]
    rw [dpn_sortDir, hsd, parseDirection_dirToString]
  · -- filtering
    intro hor
    have hq : getParam (serializeStateToUrl state params defaultUrlSyncConfig) "q" =
        (if state.filtering.globalFilter ≠ "" then some state.filtering.globalFilter
          else none) := by
      rw [hget "q" (by decide)]
      exact getParam_condStep_self _ _ _ _
    have hfilt : parseFilteringFromUrl
        (serializeStateToUrl state params defaultUrlSyncConfig) DEFAULT_PARAM_NAMES =
        { globalFilter := state.filtering.globalFilter,
          columnFilters :=
            state.filtering.columnFilters.filter (fun cf => cf.2 != "") } := by
      rw [hfin]
      rw [parseFilteringFromUrl_structure _ _ hnpQ ?_ ?_]
      · rw [← hfin, hq]
        by_cases hg : state.filtering.globalFilter = ""
        · rw [if_neg (by simp [hg]), hg]
          rfl
        · rw [if_pos hg]
          rfl
      · intro cf hcf
        exact ⟨hkeysne cf (List.mem_of_mem_filter hcf),
          by simpa using List.of_mem_filter hcf⟩
      · exact hnodup.sublist (List.Sublist.map Prod.fst (List.filter_sublist _))
    rw [hrt, parseState_filtering_default, hfilt]
    rw [if_pos ?_]
    rcases hor with hg | hcf
    · simp [hg]
    · simp only [Bool.or_eq_true, bne_iff_ne, ne_eq]
      right
      simpa using fun hh => hcf (List.length_eq_zero.mp hh)

/-- C3 counterexample: a state whose only non-default field is `pageSize = 0`
round-trips to the EMPTY partial state — `pageSize` is serialized as `"0"` but
the parser requires a positive value, so the non-default field is lost. -/
theorem urlSync_roundtrip_loses_pageSize_zero :
    parseStateFromUrl (serializeStateToUrl pageSizeZeroState [] defaultUrlSyncConfig)
        defaultUrlSyncConfig = ({} : PartialTableState) ∧
      pageSizeZeroState.pagination.pageSize ≠ 10 := by decide

/-- Witness for `urlSync_roundtrip` on `richState` over starting params
`foo=bar`. -/
theorem urlSync_roundtrip_witness :
    partialPageIndex (parseStateFromUrl
        (serializeStateToUrl richState [("foo", "bar")] defaultUrlSyncConfig)
        defaultUrlSyncConfig) = some 2 ∧
      partialPageSize (parseStateFromUrl
        (serializeStateToUrl richState [("foo", "bar")] defaultUrlSyncConfig)
        defaultUrlSyncConfig) = some 5 ∧
      (parseStateFromUrl
        (serializeStateToUrl richState [("foo", "bar")] defaultUrlSyncConfig)
        defaultUrlSyncConfig).sorting = some ⟨"name", some .asc⟩ ∧
      (parseStateFromUrl
        (serializeStateToUrl richState [("foo", "bar")] defaultUrlSyncConfig)
        defaultUrlSyncConfig).filtering = some ⟨"x", [("role", "Admin")]⟩ := by
  have h := urlSync_roundtrip richState [("foo", "bar")] (by decide) (by decide)
    (by decide) _ rfl
  refine ⟨h.1 (by decide), h.2.1 (by decide) (by decide),
    h.2.2.1 "name" .asc rfl (by decide) rfl, ?_⟩
  have h4 := h.2.2.2 (Or.inl (by decide))
  exact h4
